import Mathlib

/-! # Verification of the x86 speculation-contract model (`src/x86/x86_model.py`)

Shallow embedding of the contract implementations of `x86_model.py`:
the conditional-branch misprediction contract (`X86UnicornCond`), the
zero-injection fault contracts (`X86UnicornNull`, `X86UnicornNullFault`),
the out-of-order fault-dependency contract (`x86UnicornOOO`), and its
divide-overflow (`X86UnicornDivOverflow`) and general-protection
(`X86GPOOOModel`) specializations.

Machine integers are modelled as `Nat` with explicit `% 2 ^ w` where the
source relies on wrap-around.  Base-class primitives that are not part of
the given sources (the checkpoint-stack primitive of `UnicornSpec`, the
store log, the register-alias tables of the target description) are
modelled from the specification and marked as such in their doc comments.
-/

namespace SCAFuzzer

/-- EFLAGS bit masks, source lines 20-25. -/
def FLAGS_CF : Nat := 0b000000000001

/-- EFLAGS parity flag mask. -/
def FLAGS_PF : Nat := 0b000000000100

/-- EFLAGS auxiliary-carry flag mask. -/
def FLAGS_AF : Nat := 0b000000010000

/-- EFLAGS zero flag mask. -/
def FLAGS_ZF : Nat := 0b000001000000

/-- EFLAGS sign flag mask. -/
def FLAGS_SF : Nat := 0b000010000000

/-- EFLAGS overflow flag mask. -/
def FLAGS_OF : Nat := 0b100000000000

/-- Little-endian byte-list decoding, as Python's `int.from_bytes(b, "little")`
(unsigned). -/
def fromBytesLE : List Nat → Nat
  | [] => 0
  | b :: rest => b + 256 * fromBytesLE rest

/-- Source `emulator.mem_read(address, n)`: the `n` bytes starting at `address` of a
byte-addressed memory. -/
def memReadBytes (mem : Nat → Nat) (address n : Nat) : List Nat :=
  (List.range n).map fun i => mem (address + i)

/-- Source `emulator.mem_write(address, bs)`: overwrite `bs.length` bytes starting at
`address`. -/
def memWriteBytes (mem : Nat → Nat) (address : Nat) (bs : List Nat) : Nat → Nat :=
  fun a => if address ≤ a ∧ a < address + bs.length then bs.getD (a - address) 0 else mem a

-- ==========================================================================
-- Conditional-branch misprediction contract (X86UnicornCond, lines 118-225)
-- ==========================================================================

/-- A saved emulator CPU context for the conditional-branch contract.
Modelled from the spec: the base-class checkpoint primitive saves the raw
CPU context together with a resume address (`model.py` is not under the
given sources). -/
structure CondCtx where
  flags : Nat
  rcx : Nat
  rip : Nat
deriving DecidableEq

/-- Emulator + contract state used by `X86UnicornCond`.  `checkpoints` is the
inherited checkpoint stack (top of stack = last element, as for a Python
list with `append`/`pop`). -/
structure CondState where
  mem : Nat → Nat
  flags : Nat
  rcx : Nat
  rip : Nat
  checkpoints : List (CondCtx × Nat)
  nesting : Nat

/-- The CPU context captured by a checkpoint of the conditional-branch
contract. -/
def condCtxOf (s : CondState) : CondCtx :=
  { flags := s.flags, rcx := s.rcx, rip := s.rip }

/-- The secondary decode table `X86UnicornCond.multibyte_jmp` (lines 153-172),
keyed by the second byte of a `0x0F`-prefixed long conditional jump.  Each
entry maps `(code bytes, EFLAGS, RCX)` to
`(raw target bytes, willJump, isLoopForm)`. -/
def multibyte_jmp (op : Nat) : Option (List Nat → Nat → Nat → (List Nat × Bool × Bool)) :=
  match op with
  | 0x80 => some fun c f _ => (c.drop 2, ((f &&& FLAGS_OF) != 0), false)
  | 0x81 => some fun c f _ => (c.drop 2, ((f &&& FLAGS_OF) == 0), false)
  | 0x82 => some fun c f _ => (c.drop 2, ((f &&& FLAGS_CF) != 0), false)
  | 0x83 => some fun c f _ => (c.drop 2, ((f &&& FLAGS_CF) == 0), false)
  | 0x84 => some fun c f _ => (c.drop 2, ((f &&& FLAGS_ZF) != 0), false)
  | 0x85 => some fun c f _ => (c.drop 2, ((f &&& FLAGS_ZF) == 0), false)
  | 0x86 => some fun c f _ => (c.drop 2, (((f &&& FLAGS_CF) != 0) || ((f &&& FLAGS_ZF) != 0)), false)
  | 0x87 => some fun c f _ => (c.drop 2, (((f &&& FLAGS_CF) == 0) && ((f &&& FLAGS_ZF) == 0)), false)
  | 0x88 => some fun c f _ => (c.drop 2, ((f &&& FLAGS_SF) != 0), false)
  | 0x89 => some fun c f _ => (c.drop 2, ((f &&& FLAGS_SF) == 0), false)
  | 0x8A => some fun c f _ => (c.drop 2, ((f &&& FLAGS_PF) != 0), false)
  | 0x8B => some fun c f _ => (c.drop 2, ((f &&& FLAGS_PF) == 0), false)
  | 0x8C => some fun c f _ => (c.drop 2, (((f &&& FLAGS_SF) == 0) != ((f &&& FLAGS_OF) == 0)), false)
  | 0x8D => some fun c f _ => (c.drop 2, (((f &&& FLAGS_SF) == 0) == ((f &&& FLAGS_OF) == 0)), false)
  | 0x8E => some fun c f _ =>
      (c.drop 2, (((f &&& FLAGS_ZF) != 0) || (((f &&& FLAGS_SF) == 0) != ((f &&& FLAGS_OF) == 0))), false)
  | 0x8F => some fun c f _ =>
      (c.drop 2, (((f &&& FLAGS_ZF) == 0) && (((f &&& FLAGS_SF) == 0) == ((f &&& FLAGS_OF) == 0))), false)
  | _ => none

/-- The primary decode table `X86UnicornCond.jumps` (lines 124-151): single-byte
short conditional jumps and the LOOP family, plus the `0x0F` escape into
`multibyte_jmp`.  Absent opcodes decode to the `([0], false, false)`
"not a branch" sentinel (applied by `decode`). -/
def jumps (op : Nat) : Option (List Nat → Nat → Nat → (List Nat × Bool × Bool)) :=
  match op with
  | 0x70 => some fun c f _ => (c.drop 1, ((f &&& FLAGS_OF) != 0), false)
  | 0x71 => some fun c f _ => (c.drop 1, ((f &&& FLAGS_OF) == 0), false)
  | 0x72 => some fun c f _ => (c.drop 1, ((f &&& FLAGS_CF) != 0), false)
  | 0x73 => some fun c f _ => (c.drop 1, ((f &&& FLAGS_CF) == 0), false)
  | 0x74 => some fun c f _ => (c.drop 1, ((f &&& FLAGS_ZF) != 0), false)
  | 0x75 => some fun c f _ => (c.drop 1, ((f &&& FLAGS_ZF) == 0), false)
  | 0x76 => some fun c f _ => (c.drop 1, (((f &&& FLAGS_CF) != 0) || ((f &&& FLAGS_ZF) != 0)), false)
  | 0x77 => some fun c f _ => (c.drop 1, (((f &&& FLAGS_CF) == 0) && ((f &&& FLAGS_ZF) == 0)), false)
  | 0x78 => some fun c f _ => (c.drop 1, ((f &&& FLAGS_SF) != 0), false)
  | 0x79 => some fun c f _ => (c.drop 1, ((f &&& FLAGS_SF) == 0), false)
  | 0x7A => some fun c f _ => (c.drop 1, ((f &&& FLAGS_PF) != 0), false)
  | 0x7B => some fun c f _ => (c.drop 1, ((f &&& FLAGS_PF) == 0), false)
  | 0x7C => some fun c f _ => (c.drop 1, (((f &&& FLAGS_SF) == 0) != ((f &&& FLAGS_OF) == 0)), false)
  | 0x7D => some fun c f _ => (c.drop 1, (((f &&& FLAGS_SF) == 0) == ((f &&& FLAGS_OF) == 0)), false)
  | 0x7E => some fun c f _ =>
      (c.drop 1, (((f &&& FLAGS_ZF) != 0) || (((f &&& FLAGS_SF) == 0) != ((f &&& FLAGS_OF) == 0))), false)
  | 0x7F => some fun c f _ =>
      (c.drop 1, (((f &&& FLAGS_ZF) == 0) && (((f &&& FLAGS_SF) == 0) == ((f &&& FLAGS_OF) == 0))), false)
  | 0xE0 => some fun c f r => (c.drop 1, ((r != 1) && ((f &&& FLAGS_ZF) == 0)), true)
  | 0xE1 => some fun c f r => (c.drop 1, ((r != 1) && ((f &&& FLAGS_ZF) != 0)), true)
  | 0xE2 => some fun c _ r => (c.drop 1, (r != 1), true)
  | 0xE3 => some fun c _ r => (c.drop 1, (r == 0), false)
  | 0x0F => some fun c f r =>
      ((multibyte_jmp (c.getD 1 0)).getD (fun _ _ _ => ([0], false, false))) c f r
  | _ => none

/-- Source `X86UnicornCond.decode` (lines 209-221).  Decodes the instruction bytes
and, for a conditional jump, returns its raw target (a single displacement
byte is returned as-is, longer displacements are little-endian decoded;
both unsigned, as in the source), whether it will jump, and whether it is
a LOOP-family instruction. -/
def decode (code : List Nat) (flags rcx : Nat) : Nat × Bool × Bool :=
  let calculate_target := (jumps (code.getD 0 0)).getD (fun _ _ _ => ([0], false, false))
  match calculate_target code flags rcx with
  | (target, will_jump, is_loop) =>
    if target.length = 1 then (target.getD 0 0, will_jump, is_loop)
    else (fromBytesLE target, will_jump, is_loop)

/-- Source `X86UnicornCond.speculate_instruction` (lines 174-207): below the nesting
limit and for instructions of at most 15 bytes, decode the fetched bytes;
on a recognized branch (decoded target nonzero), decrement RCX for the
LOOP family, push a checkpoint whose resume address is the architecturally
correct next address, and write the opposite address into RIP.
RCX wraps modulo `2 ^ 64` as the emulator register does. -/
def condSpeculateInstruction (s : CondState) (address size : Nat) : CondState :=
  if s.nesting ≤ s.checkpoints.length then s
  else if 15 < size then s
  else
    let code := memReadBytes s.mem address size
    match decode code s.flags s.rcx with
    | (target, will_jump, is_loop) =>
      if target = 0 then s
      else
        let s1 := if is_loop then { s with rcx := (s.rcx + (2 ^ 64 - 1)) % 2 ^ 64 } else s
        let next_instr := if will_jump then address + size + target else address + size
        let s2 := { s1 with checkpoints := s1.checkpoints ++ [(condCtxOf s1, next_instr)] }
        if will_jump then { s2 with rip := address + size }
        else { s2 with rip := address + size + target }

-- ==========================================================================
-- Zero-injection fault contracts (X86UnicornNull / X86UnicornNullFault,
-- lines 232-306)
-- ==========================================================================

/-- Source `UC_MEM_WRITE` of the unicorn Python bindings (an external constant;
its exact value is irrelevant, only (in)equality with the `access`
argument is tested by the hooks). -/
def UC_MEM_WRITE : Nat := 17

/-- Emulator + contract state used by the zero-injection contracts.
The checkpoint stack and the per-checkpoint store logs are modelled from
the spec: the base-class `checkpoint` saves the raw CPU context (here: the
register file) plus a resume address and opens a fresh store-log entry
list; `rollback` pops both, restores the saved context and writes the
logged original bytes back to memory.  `faultyProtected` models the
memory protection of the faulty region. -/
structure NullState where
  regs : String → Nat
  mem : Nat → Nat
  checkpoints : List ((String → Nat) × Nat)
  store_logs : List (List (Nat × List Nat))
  injection_pending : Bool
  instruction_address : Nat
  faultyProtected : Bool
  nesting : Nat
  code_end : Nat

/-- Source `X86UnicornNull.speculate_fault` (lines 241-257): act only on the curated
fault subset `[12, 13]`; refuse at the nesting limit; otherwise arm the
injection-pending flag, lift the protection of the faulty region, and
request re-execution of the faulting instruction.  Returns the resume
address (0 = do not speculate) and the new state. -/
def nullSpeculateFault (s : NullState) (errno : Nat) : Nat × NullState :=
  if errno ∉ [12, 13] then (0, s)
  else if s.nesting ≤ s.checkpoints.length then (0, s)
  else
    (s.instruction_address,
      { s with injection_pending := true, faultyProtected := false })

/-- Source `X86UnicornNull.speculate_instruction` (lines 259-263): record the current
instruction address for later checkpointing. -/
def nullSpeculateInstruction (s : NullState) (address : Nat) : NullState :=
  { s with instruction_address := address }

/-- Source `X86UnicornNull.speculate_mem_access` (lines 265-283): while injection is
pending, consume the flag; on a load, push a checkpoint resuming at the
recorded instruction address, append the original 8 bytes at the accessed
address to the fresh store log, and overwrite the accessed `size` bytes
with zero.  A write access only consumes the flag. -/
def nullSpeculateMemAccess (s : NullState) (access address size : Nat) : NullState :=
  if !s.injection_pending then s
  else
    let s := { s with injection_pending := false }
    if access = UC_MEM_WRITE then s
    else
      let s := { s with checkpoints := s.checkpoints ++ [(s.regs, s.instruction_address)],
                        store_logs := s.store_logs ++ [[]] }
      let s := { s with store_logs :=
                  s.store_logs.dropLast
                    ++ [(s.store_logs.getLastD []) ++ [(address, memReadBytes s.mem address 8)]] }
      { s with mem := memWriteBytes s.mem address (List.replicate size 0) }

/-- Source `X86UnicornNullFault.speculate_mem_access` (lines 288-306): identical to
`nullSpeculateMemAccess` except that the checkpoint resumes at program end
(the fault is modelled as terminal). -/
def nullFaultSpeculateMemAccess (s : NullState) (access address size : Nat) : NullState :=
  if !s.injection_pending then s
  else
    let s := { s with injection_pending := false }
    if access = UC_MEM_WRITE then s
    else
      let s := { s with checkpoints := s.checkpoints ++ [(s.regs, s.code_end)],
                        store_logs := s.store_logs ++ [[]] }
      let s := { s with store_logs :=
                  s.store_logs.dropLast
                    ++ [(s.store_logs.getLastD []) ++ [(address, memReadBytes s.mem address 8)]] }
      { s with mem := memWriteBytes s.mem address (List.replicate size 0) }

/-- Replay a store log onto memory, most recent entry first.  Modelled from
the spec: rollback pops entries off the store log and writes the recorded
original bytes back. -/
def applyLog (mem : Nat → Nat) (log : List (Nat × List Nat)) : Nat → Nat :=
  log.reverse.foldl (fun m e => memWriteBytes m e.1 e.2) mem

/-- Base-class rollback for the zero-injection contracts.  Modelled from the
spec: pop the top checkpoint, restore its CPU context, undo speculative
memory writes by replaying the popped store log, and return the saved
resume address.  `none` when the checkpoint stack is empty (Python would
raise). -/
def nullRollback (s : NullState) : Option (NullState × Nat) :=
  match s.checkpoints.getLast?, s.store_logs.getLast? with
  | some (regs, resume), some log =>
      some ({ s with regs := regs,
                     mem := applyLog s.mem log,
                     checkpoints := s.checkpoints.dropLast,
                     store_logs := s.store_logs.dropLast }, resume)
  | _, _ => none

-- ==========================================================================
-- Instruction / operand abstraction (consumed from `interfaces`, modelled
-- from the spec) and register-alias tables (from `x86_target_desc`,
-- modelled from the spec)
-- ==========================================================================

/-- Operands of a decoded instruction.  Modelled from the spec: the
instruction/operand abstraction tags operands register/memory/flags,
each tagged source/destination, with per-flag read/write sets for the
flags pseudo-operand.  `value` is the operand's textual value
(register name, or address expression of a memory operand). -/
inductive Operand where
  | reg (value : String) (src dest : Bool) (width : Nat)
  | mem (value : String) (src dest : Bool) (width : Nat)
  | flags (readFlags writeFlags : List String)
deriving DecidableEq

/-- Whether an operand is a source. -/
def Operand.isSrc : Operand → Bool
  | .reg _ s _ _ => s
  | .mem _ s _ _ => s
  | .flags r _ => !r.isEmpty

/-- Whether an operand is a destination. -/
def Operand.isDest : Operand → Bool
  | .reg _ _ d _ => d
  | .mem _ _ d _ => d
  | .flags _ w => !w.isEmpty

/-- Textual value of a register or memory operand. -/
def Operand.opValue : Operand → String
  | .reg v _ _ _ => v
  | .mem v _ _ _ => v
  | .flags _ _ => ""

/-- Whether an operand is a memory operand. -/
def Operand.isMem : Operand → Bool
  | .mem _ _ _ _ => true
  | _ => false

/-- A decoded instruction: name plus explicit and implicit operands.
Modelled from the spec (the `interfaces` module is not under the given
sources). -/
structure Instr where
  name : String
  operands : List Operand
  implicit_operands : List Operand
deriving DecidableEq

/-- Source `Instruction.get_dest_operands(True)`: all destination operands, implicit
ones included.  Modelled from the spec. -/
def Instr.getDestOperands (i : Instr) (incl : Bool) : List Operand :=
  (i.operands ++ if incl then i.implicit_operands else []).filter Operand.isDest

/-- Source `Instruction.get_all_operands()`: explicit followed by implicit operands.
Modelled from the spec. -/
def Instr.getAllOperands (i : Instr) : List Operand :=
  i.operands ++ i.implicit_operands

/-- Source `Instruction.get_mem_operands()`: the explicit memory operands.
Modelled from the spec. -/
def Instr.getMemOperands (i : Instr) : List Operand :=
  i.operands.filter Operand.isMem

/-- Source `Instruction.get_implicit_mem_operands()`: the implicit memory operands.
Modelled from the spec. -/
def Instr.getImplicitMemOperands (i : Instr) : List Operand :=
  i.implicit_operands.filter Operand.isMem

/-- Source `X86TargetDesc.gpr_normalized` as a partial map.  Modelled from the spec:
the target description's canonical register-alias normalization maps every
alias of a general-purpose register (AL/AH/AX/EAX/RAX and so on) to one
canonical name; names outside the table are not general-purpose registers.
Only the registers needed by the embedded contracts are listed. -/
def gprNormalizedTable (r : String) : Option String :=
  match r with
  | "RAX" | "EAX" | "AX" | "AL" | "AH" => some "A"
  | "RBX" | "EBX" | "BX" | "BL" | "BH" => some "B"
  | "RCX" | "ECX" | "CX" | "CL" | "CH" => some "C"
  | "RDX" | "EDX" | "DX" | "DL" | "DH" => some "D"
  | "RSI" | "ESI" | "SI" | "SIL" => some "SI"
  | "RDI" | "EDI" | "DI" | "DIL" => some "DI"
  | "RBP" | "EBP" | "BP" => some "BP"
  | "RSP" | "ESP" | "SP" => some "SP"
  | "R8" | "R8D" => some "8"
  | "R9" | "R9D" => some "9"
  | "R10" | "R10D" => some "10"
  | "R11" | "R11D" => some "11"
  | "R12" | "R12D" => some "12"
  | "R13" | "R13D" => some "13"
  | "R14" | "R14D" => some "14"
  | "R15" | "R15D" => some "15"
  | "CF" | "PF" | "AF" | "ZF" | "SF" | "OF" => some r
  | _ => none

/-- Membership test `sub_op in X86TargetDesc.gpr_normalized`. -/
def isGprAlias (r : String) : Bool :=
  (gprNormalizedTable r).isSome

/-- Total normalization `X86TargetDesc.gpr_normalized[r]` (total here; the
Python dict lookup raises on unknown keys, which the embedded code guards
with a membership test wherever the key can be unknown). -/
def gpr_normalized (r : String) : String :=
  (gprNormalizedTable r).getD r

/-- The sub-register alias names whose unicorn handles do not read/write the
full 64-bit register.  Modelled from the spec's register-alias tables. -/
def subRegAliases : List String :=
  ["EAX", "AX", "AL", "AH", "EBX", "BX", "BL", "BH", "ECX", "CX", "CL", "CH",
   "EDX", "DX", "DL", "DH", "ESI", "SI", "SIL", "EDI", "DI", "DIL",
   "EBP", "BP", "ESP", "SP", "R8D", "R9D", "R10D", "R11D", "R12D", "R13D",
   "R14D", "R15D"]

/-- Source `emulator.reg_read` through `reg_str_to_constant`.  Modelled from the
spec: unicorn register handles for sub-registers read the corresponding
slice of the full 64-bit register; any other name reads the register file
directly. -/
def ucRegRead (regs : String → Nat) (name : String) : Nat :=
  match name with
  | "EAX" => regs "RAX" % 2 ^ 32
  | "AX" => regs "RAX" % 2 ^ 16
  | "AL" => regs "RAX" % 2 ^ 8
  | "AH" => regs "RAX" / 2 ^ 8 % 2 ^ 8
  | "EBX" => regs "RBX" % 2 ^ 32
  | "BX" => regs "RBX" % 2 ^ 16
  | "BL" => regs "RBX" % 2 ^ 8
  | "BH" => regs "RBX" / 2 ^ 8 % 2 ^ 8
  | "ECX" => regs "RCX" % 2 ^ 32
  | "CX" => regs "RCX" % 2 ^ 16
  | "CL" => regs "RCX" % 2 ^ 8
  | "CH" => regs "RCX" / 2 ^ 8 % 2 ^ 8
  | "EDX" => regs "RDX" % 2 ^ 32
  | "DX" => regs "RDX" % 2 ^ 16
  | "DL" => regs "RDX" % 2 ^ 8
  | "DH" => regs "RDX" / 2 ^ 8 % 2 ^ 8
  | _ => regs name

/-- Source `emulator.reg_write` through `reg_str_to_constant`.  Modelled from the
spec and x86 semantics as implemented by unicorn: 32-bit writes
zero-extend into the full register, 16/8-bit writes preserve the
remaining bits; any other name writes the register file directly
(masked to 64 bits). -/
def ucRegWrite (regs : String → Nat) (name : String) (v : Nat) : String → Nat :=
  let set64 := fun (full : String) (x : Nat) =>
    fun r => if r = full then x % 2 ^ 64 else regs r
  let setLow := fun (full : String) (w : Nat) =>
    set64 full (regs full - regs full % 2 ^ w + v % 2 ^ w)
  let setHigh8 := fun (full : String) =>
    set64 full (regs full - (regs full / 2 ^ 8 % 2 ^ 8) * 2 ^ 8 + (v % 2 ^ 8) * 2 ^ 8)
  match name with
  | "EAX" => set64 "RAX" (v % 2 ^ 32)
  | "AX" => setLow "RAX" 16
  | "AL" => setLow "RAX" 8
  | "AH" => setHigh8 "RAX"
  | "EBX" => set64 "RBX" (v % 2 ^ 32)
  | "BX" => setLow "RBX" 16
  | "BL" => setLow "RBX" 8
  | "BH" => setHigh8 "RBX"
  | "ECX" => set64 "RCX" (v % 2 ^ 32)
  | "CX" => setLow "RCX" 16
  | "CL" => setLow "RCX" 8
  | "CH" => setHigh8 "RCX"
  | "EDX" => set64 "RDX" (v % 2 ^ 32)
  | "DX" => setLow "RDX" 16
  | "DL" => setLow "RDX" 8
  | "DH" => setHigh8 "RDX"
  | _ => set64 name v

-- ==========================================================================
-- Out-of-order fault-dependency contract (x86UnicornOOO, lines 321-448)
-- ==========================================================================

/-- State of the out-of-order contract family (`x86UnicornOOO` and its
subclasses `X86UnicornDivOverflow`, `X86MeltdownModel`, `X86GPOOOModel`).
`checkpoints`/`store_logs`/`in_speculation`/`previous_context` belong to
the base class and are modelled from the spec (checkpoint saves the raw
CPU context plus a resume address and opens a fresh store log; RIP lives
in `regs`). -/
structure OOOState where
  regs : String → Nat
  mem : Nat → Nat
  checkpoints : List ((String → Nat) × Nat)
  store_logs : List (List (Nat × List Nat))
  dependencies : List String
  dependency_checkpoints : List (List String)
  nesting : Nat
  code_end : Nat
  next_instr_address : Nat
  curr_instr_address : Nat
  last_faulty_instr_address : Nat
  in_speculation : Bool
  pending_fault : Nat
  previous_context : String → Nat
  stopped : Bool
  div_value : Nat
  current_instruction : Instr

/-- Source `x86UnicornOOO.checkpoint` (lines 442-444): push a snapshot of the
dependency set, then the inherited checkpoint (modelled from the spec:
push the CPU context and the resume address, open a fresh store log,
enter speculation). -/
def oooCheckpoint (s : OOOState) (next_instruction : Nat) : OOOState :=
  { s with dependency_checkpoints := s.dependency_checkpoints ++ [s.dependencies],
           checkpoints := s.checkpoints ++ [(s.regs, next_instruction)],
           store_logs := s.store_logs ++ [[]],
           in_speculation := true }

/-- Source `x86UnicornOOO.rollback` (lines 446-448): pop the dependency-set snapshot,
then the inherited rollback (modelled from the spec: pop the top
checkpoint, restore its CPU context, undo speculative memory writes by
replaying the popped store log, return the saved resume address; leave
speculation when the stack empties).  `none` on an empty stack (Python
would raise). -/
def oooRollback (s : OOOState) : Option (OOOState × Nat) :=
  match s.dependency_checkpoints.getLast?, s.checkpoints.getLast?, s.store_logs.getLast? with
  | some deps, some (regs, resume), some log =>
      let ckpts := s.checkpoints.dropLast
      some ({ s with dependencies := deps,
                     dependency_checkpoints := s.dependency_checkpoints.dropLast,
                     regs := regs,
                     mem := applyLog s.mem log,
                     checkpoints := ckpts,
                     store_logs := s.store_logs.dropLast,
                     in_speculation := !ckpts.isEmpty }, resume)
  | _, _, _ => none

/-- Source `self.relevant_faults` as set in `x86UnicornOOO.__init__` (line 332). -/
def relevant_faults : List Nat := [12, 13]

/-- Python `set.add`: append a name unless already present. -/
def addDep (d : List String) (r : String) : List String :=
  if r ∈ d then d else d ++ [r]

/-- The dependency-seeding loop of `x86UnicornOOO.speculate_fault`
(lines 349-355): add the canonicalized name of every destination register
and every written flag. -/
def seedDeps (deps : List String) (ops : List Operand) : List String :=
  ops.foldl (fun d op =>
    match op with
    | .reg v _ _ _ => addDep d (gpr_normalized v)
    | .flags _ w => w.foldl addDep d
    | .mem _ _ _ _ => d) deps

/-- Source `x86UnicornOOO.speculate_fault` (lines 336-361): filter to the curated
fault subset, refuse at the nesting limit, checkpoint with resume target
`code_end`, seed the dependency set with the faulting instruction's
destinations, and request resumption at the next instruction (0 if that
is at or past program end). -/
def oooSpeculateFault (s : OOOState) (errno : Nat) : Nat × OOOState :=
  if errno ∉ relevant_faults then (0, s)
  else if s.nesting ≤ s.checkpoints.length then (0, s)
  else
    let s := oooCheckpoint s s.code_end
    let s := { s with dependencies :=
                seedDeps s.dependencies (s.current_instruction.getDestOperands true) }
    if s.code_end ≤ s.next_instr_address then (0, s)
    else (s.next_instr_address, s)

/-- Splitting a character list at every delimiter, keeping empty fragments
(as Python's `re.split` does). -/
def splitCharsAux (p : Char → Bool) : List Char → List Char → List String
  | [], acc => [String.mk acc.reverse]
  | c :: cs, acc =>
      if p c then String.mk acc.reverse :: splitCharsAux p cs []
      else splitCharsAux p cs (c :: acc)

/-- Source `re.split(r'\+|-|\*| ', v)`: split an address expression at every
`+`, `-`, `*` or space (empty fragments included, as in Python). -/
def splitMemExpr (v : String) : List String :=
  splitCharsAux (fun c => c == '+' || c == '-' || c == '*' || c == ' ') v.data []

/-- The operand-classification loop shared by `x86UnicornOOO` and
`X86GPOOOModel` `speculate_instruction` (lines 386-400 and 599-613):
register reads/writes and flag reads/writes are direct; the registers of a
memory operand's address expression count only as reads. -/
def classifyOperands (ops : List Operand) : List String × List String :=
  ops.foldl (fun acc op =>
    match op with
    | .reg v srcb destb _ =>
        let srcs := if srcb then acc.1 ++ [gpr_normalized v] else acc.1
        let dests := if destb then acc.2 ++ [gpr_normalized v] else acc.2
        (srcs, dests)
    | .mem v _ _ _ =>
        ((splitMemExpr v).foldl
          (fun l t => if t ≠ "" ∧ isGprAlias t then l ++ [gpr_normalized t] else l) acc.1,
         acc.2)
    | .flags r w => (acc.1 ++ r, acc.2 ++ w)) ([], [])

/-- The pruning loop of the dependency trackers (lines 408-411 and 621-624):
a destination that is not also a source is removed from the dependency
set. -/
def pruneDeps (deps : List String) (dests srcs : List String) : List String :=
  dests.foldl (fun d r => if r ∉ srcs ∧ r ∈ d then d.erase r else d) deps

/-- Source `x86UnicornOOO.speculate_instruction` (lines 363-421): record the next
instruction address; while speculating with a nonempty dependency set,
classify operands, prune freshly-computed destinations, and if any source
is tainted, taint the destinations and skip the instruction by moving RIP
past it.  The guard at lines 374-382 sits inside an unresolved merge
conflict in the source; following the spec's design note, the narrower
HEAD guard (`not in_speculation or not dependencies`) is embedded. -/
def oooSpeculateInstruction (s : OOOState) (address size : Nat) : OOOState :=
  let s := { s with next_instr_address := address + size }
  if !s.in_speculation || s.dependencies.isEmpty then s
  else
    let (reg_src_operands, reg_dest_operands) :=
      classifyOperands s.current_instruction.getAllOperands
    let is_dependent := reg_src_operands.any fun r => decide (r ∈ s.dependencies)
    let s := { s with dependencies := pruneDeps s.dependencies reg_dest_operands reg_src_operands }
    if !is_dependent then s
    else
      let s := { s with dependencies := reg_dest_operands.foldl addDep s.dependencies }
      { s with regs := ucRegWrite s.regs "RIP" (address + size) }

-- ==========================================================================
-- Divide-overflow specialization (X86UnicornDivOverflow, lines 451-529)
-- ==========================================================================

/-- Result of `X86UnicornDivOverflow.speculate_fault`: a returned resume
address, a raised `UnreachableCode`, or a failed `assert` — each carrying
the state at that point. -/
inductive DivFaultResult where
  | ok (ret : Nat) (s : OOOState)
  | unreachableCode (s : OOOState)
  | assertionError (s : OOOState)

/-- Resume address of a non-raising result. -/
def DivFaultResult.retVal : DivFaultResult → Option Nat
  | .ok ret _ => some ret
  | _ => none

/-- The state carried by a `DivFaultResult`. -/
def DivFaultResult.state : DivFaultResult → OOOState
  | .ok _ s => s
  | .unreachableCode s => s
  | .assertionError s => s

/-- Whether the result is a raised `UnreachableCode`. -/
def DivFaultResult.isUnreachable : DivFaultResult → Bool
  | .unreachableCode _ => true
  | _ => false

/-- The divisor value read by `X86UnicornDivOverflow.speculate_fault`
(lines 464-471): directly from the divisor register, or from the value
captured by the memory hook for a memory operand; `none` for the
`raise UnreachableCode()` fallback. -/
def getDividerValue (s : OOOState) : Operand → Option Nat
  | .reg v _ _ _ => some (ucRegRead s.regs v)
  | .mem _ _ _ _ => some s.div_value
  | .flags _ _ => none

/-- The per-width DIV synthesis of `X86UnicornDivOverflow.speculate_fault`
(lines 480-522), applied after the checkpoint: compute the trimmed
quotient and the remainder directly into the width-specific destination
registers and return the next instruction address; an unknown width
raises. -/
def divExecute (s : OOOState) (width value : Nat) : DivFaultResult :=
  if width = 64 then
    let a := ucRegRead s.regs "RAX"
    let d := ucRegRead s.regs "RDX"
    let trimmed_result := ((d <<< 64) + a) / value % 0xffffffffffffffff
    let regs := ucRegWrite s.regs "RAX" trimmed_result
    let regs := ucRegWrite regs "RDX" (((d <<< 64) + a) % value)
    .ok s.next_instr_address { s with regs := regs }
  else if width = 32 then
    let a := ucRegRead s.regs "EAX"
    let d := ucRegRead s.regs "EDX"
    let trimmed_result := ((d <<< 32) + a) / value % 0xffffffff
    let regs := ucRegWrite s.regs "EAX" trimmed_result
    let regs := ucRegWrite regs "EDX" (((d <<< 32) + a) % value)
    .ok s.next_instr_address { s with regs := regs }
  else if width = 16 then
    let a := ucRegRead s.regs "AX"
    let d := ucRegRead s.regs "DX"
    let trimmed_result := ((d <<< 16) + a) / value % 0xffff
    let regs := ucRegWrite s.regs "AX" trimmed_result
    let regs := ucRegWrite regs "DX" (((d <<< 16) + a) % value)
    .ok s.next_instr_address { s with regs := regs }
  else if width = 8 then
    let a := ucRegRead s.regs "AX"
    let trimmed_result := a / value % 0xff
    let regs := ucRegWrite s.regs "AL" trimmed_result
    let regs := ucRegWrite regs "AH" (a % value)
    .ok s.next_instr_address { s with regs := regs }
  else .unreachableCode s

/-- Operand width accessor. -/
def Operand.width : Operand → Nat
  | .reg _ _ _ w => w
  | .mem _ _ _ w => w
  | .flags _ _ => 0

/-- Source `X86UnicornDivOverflow.speculate_fault` (lines 454-524): non-divide
instructions delegate to the inherited handler; at the nesting limit
refuse; read the true divisor; a zero divisor delegates (genuine
divide-by-zero); otherwise checkpoint to program end, synthesize the DIV
result per width, and resume after the divide — while the IDIV branch
raises `UnreachableCode`. -/
def divSpeculateFault (s : OOOState) (errno : Nat) : DivFaultResult :=
  if s.current_instruction.name ∉ ["DIV", "IDIV"] then
    let r := oooSpeculateFault s errno
    .ok r.1 r.2
  else if s.nesting ≤ s.checkpoints.length then .ok 0 s
  else if s.current_instruction.operands.length ≠ 1 then .assertionError s
  else
    match s.current_instruction.operands.head? with
    | none => .assertionError s
    | some divider =>
      if !divider.isSrc then .assertionError s
      else
        match getDividerValue s divider with
        | none => .unreachableCode s
        | some value =>
          if value = 0 then
            let r := oooSpeculateFault s errno
            .ok r.1 r.2
          else
            let s := oooCheckpoint s s.code_end
            if s.current_instruction.name = "DIV" then divExecute s divider.width value
            else .unreachableCode s

/-- Source `X86UnicornDivOverflow.trace_mem_access` (lines 526-529): capture the
accessed value for a later memory-operand divide. -/
def divTraceMemAccess (s : OOOState) (address size : Nat) : OOOState :=
  { s with div_value := fromBytesLE (memReadBytes s.mem address size) }

-- ==========================================================================
-- Non-canonical-address contract (X86GPOOOModel, lines 544-649)
-- ==========================================================================

/-- The detection loop of `X86GPOOOModel.speculate_instruction`
(lines 569-577): scan the instruction's memory operands in order; skip
those whose address expression splits into more than one term; return the
first single base register whose value lies strictly inside the
non-canonical gap.  (The Python dict lookup `reg_str_to_constant[...]`
raises on a non-register token; the embedding reads the register file
directly.) -/
def gpScan (regs : String → Nat) : List String → Option String
  | [] => none
  | v :: rest =>
      if 1 < (splitMemExpr v).length then gpScan regs rest
      else
        if 0x00007fffffffffff < ucRegRead regs ((splitMemExpr v).getD 0 "")
            ∧ ucRegRead regs ((splitMemExpr v).getD 0 "") < 0xffff800000000000 then
          some ((splitMemExpr v).getD 0 "")
        else gpScan regs rest

/-- The refined dependence test of `X86GPOOOModel.speculate_instruction`
(lines 629-640): the instruction stays skippable only if the dependency
reaches it through the address registers of an explicit memory operand. -/
def gpMemAddrDependent (i : Instr) (deps : List String) : Bool :=
  let implicit := i.getImplicitMemOperands
  i.getMemOperands.any fun op =>
    !(implicit.contains op) &&
      (splitMemExpr op.opValue).any fun t =>
        (t != "") && isGprAlias t && decide (gpr_normalized t ∈ deps)

/-- Source `X86GPOOOModel.speculate_instruction` (lines 559-649): record the
current/next instruction addresses; if a single-base-register memory
operand holds a value strictly inside the non-canonical gap, mark pending
fault 6, record the instruction address as last-faulty, flip address
bit 48 of the register, snapshot the corrected context and stop emulation;
otherwise run the dependency-skip logic, refined so that only a
dependence through explicit memory-address registers skips the
instruction. -/
def gpSpeculateInstruction (s : OOOState) (address size : Nat) : OOOState :=
  let s := { s with next_instr_address := address + size, curr_instr_address := address }
  match gpScan s.regs (s.current_instruction.getMemOperands.map Operand.opValue) with
  | some r =>
      let old := ucRegRead s.regs r
      let regs := ucRegWrite s.regs r (old ^^^ 0x1000000000000)
      { s with pending_fault := 6,
               last_faulty_instr_address := address,
               regs := regs,
               previous_context := regs,
               stopped := true }
  | none =>
      if !s.in_speculation && s.dependencies.isEmpty then s
      else if s.dependencies.length = 0 then s
      else if s.last_faulty_instr_address = s.curr_instr_address then s
      else
        let (reg_src_operands, reg_dest_operands) :=
          classifyOperands s.current_instruction.getAllOperands
        let is_dependent := reg_src_operands.any fun r => decide (r ∈ s.dependencies)
        let s := { s with dependencies :=
                    pruneDeps s.dependencies reg_dest_operands reg_src_operands }
        if !is_dependent then s
        else if !gpMemAddrDependent s.current_instruction s.dependencies then s
        else
          let s := { s with dependencies := reg_dest_operands.foldl addDep s.dependencies }
          { s with regs := ucRegWrite s.regs "RIP" (address + size) }

/-- Source `X86GPOOOModel.speculate_fault` (lines 549-557): run the inherited
handler; for fault 6 with speculation granted, resume at the original
(now corrected) instruction instead of skipping it. -/
def gpSpeculateFault (s : OOOState) (errno : Nat) : Nat × OOOState :=
  let r := oooSpeculateFault s errno
  if errno = 6 ∧ r.1 ≠ 0 then (r.2.curr_instr_address, r.2) else r

-- ==========================================================================
-- Per-contract operation alphabets and run functions (for the stack-depth
-- and lockstep invariants)
-- ==========================================================================

/-- Base-class rollback for the conditional-branch contract.  Modelled from
the spec: pop the top checkpoint, restore its CPU context, and resume at
the saved address.  A pop of an empty stack (which the driver never
performs) is a no-op here. -/
def condRollback (s : CondState) : CondState :=
  match s.checkpoints.getLast? with
  | some (ctx, resume) =>
      { s with flags := ctx.flags, rcx := ctx.rcx, rip := resume,
               checkpoints := s.checkpoints.dropLast }
  | none => s

/-- Hook-level operations of the conditional-branch contract. -/
inductive CondOp where
  | instr (address size : Nat)
  | rb

/-- One hook invocation of the conditional-branch contract. -/
def condStep (s : CondState) : CondOp → CondState
  | .instr a sz => condSpeculateInstruction s a sz
  | .rb => condRollback s

/-- A run of conditional-branch hook invocations. -/
def runCond (s : CondState) (ops : List CondOp) : CondState :=
  ops.foldl condStep s

/-- Hook-level operations of the zero-injection contracts. -/
inductive NullOp where
  | fault (errno : Nat)
  | instr (address : Nat)
  | memNull (access address size : Nat)
  | memNullFault (access address size : Nat)
  | rb

/-- One hook invocation of the zero-injection contracts.  A rollback of an
empty stack (which the driver never performs) is a no-op here. -/
def nullStep (s : NullState) : NullOp → NullState
  | .fault errno => (nullSpeculateFault s errno).2
  | .instr a => nullSpeculateInstruction s a
  | .memNull access a sz => nullSpeculateMemAccess s access a sz
  | .memNullFault access a sz => nullFaultSpeculateMemAccess s access a sz
  | .rb => match nullRollback s with
           | some (s', _) => s'
           | none => s

/-- A run of zero-injection hook invocations. -/
def runNull (s : NullState) (ops : List NullOp) : NullState :=
  ops.foldl nullStep s

/-- Hook-level operations of the out-of-order contract (`ckpt` is the public
`checkpoint` method). -/
inductive OOOOp where
  | fault (errno : Nat)
  | instr (address size : Nat)
  | ckpt (resume : Nat)
  | rb

/-- One hook invocation of the out-of-order contract. -/
def oooStep (s : OOOState) : OOOOp → OOOState
  | .fault errno => (oooSpeculateFault s errno).2
  | .instr a sz => oooSpeculateInstruction s a sz
  | .ckpt resume => oooCheckpoint s resume
  | .rb => match oooRollback s with
           | some (s', _) => s'
           | none => s

/-- A run of out-of-order hook invocations. -/
def runOOO (s : OOOState) (ops : List OOOOp) : OOOState :=
  ops.foldl oooStep s

/-- Hook-level operations of the divide-overflow contract. -/
inductive DivOp where
  | fault (errno : Nat)
  | instr (address size : Nat)
  | traceMem (address size : Nat)
  | rb

/-- One hook invocation of the divide-overflow contract.  A raising
`speculate_fault` leaves the state it had reached when it raised. -/
def divStep (s : OOOState) : DivOp → OOOState
  | .fault errno => (divSpeculateFault s errno).state
  | .instr a sz => oooSpeculateInstruction s a sz
  | .traceMem a sz => divTraceMemAccess s a sz
  | .rb => match oooRollback s with
           | some (s', _) => s'
           | none => s

/-- A run of divide-overflow hook invocations. -/
def runDiv (s : OOOState) (ops : List DivOp) : OOOState :=
  ops.foldl divStep s

/-- Hook-level operations of the non-canonical-address contract. -/
inductive GPOp where
  | fault (errno : Nat)
  | instr (address size : Nat)
  | rb

/-- One hook invocation of the non-canonical-address contract. -/
def gpStep (s : OOOState) : GPOp → OOOState
  | .fault errno => (gpSpeculateFault s errno).2
  | .instr a sz => gpSpeculateInstruction s a sz
  | .rb => match oooRollback s with
           | some (s', _) => s'
           | none => s

/-- A run of non-canonical-address hook invocations. -/
def runGP (s : OOOState) (ops : List GPOp) : OOOState :=
  ops.foldl gpStep s

/-- The claim's reading of the JZ displacement, written from the spec's
words for comparison with the source's `decode`: the predicted-taken
target is `address + size` plus the SIGN-EXTENDED one-byte displacement. -/
def claimSignedJZTarget (address size b : Nat) : Int :=
  (address : Int) + (size : Int) + (if b < 0x80 then (b : Int) else (b : Int) - 256)

/-- Canonical x86-64 addresses, written from the spec's words: the complement
of the open non-canonical gap used by `X86GPOOOModel`. -/
def isCanonicalAddr (v : Nat) : Prop :=
  v ≤ 0x00007fffffffffff ∨ 0xffff800000000000 ≤ v

instance (v : Nat) : Decidable (isCanonicalAddr v) := by
  unfold isCanonicalAddr
  infer_instance

-- ==========================================================================
-- Theorems
-- ==========================================================================

/-- A 64-bit `DIV RBX` whose dividend RDX:RAX = 2^64 overflows the 64-bit
quotient with divisor RBX = 1: the failing input of claim C1. -/
def c1State : OOOState :=
  { regs := fun r => if r = "RDX" then 1 else if r = "RBX" then 1 else 0,
    mem := fun _ => 0,
    checkpoints := [],
    store_logs := [],
    dependencies := [],
    dependency_checkpoints := [],
    nesting := 4,
    code_end := 0x3000,
    next_instr_address := 0x2005,
    curr_instr_address := 0x2000,
    last_faulty_instr_address := 0,
    in_speculation := false,
    pending_fault := 0,
    previous_context := fun _ => 0,
    stopped := false,
    div_value := 0,
    current_instruction :=
      { name := "DIV",
        operands := [.reg "RBX" true false 64],
        implicit_operands := [] } }

/-- C1 (code bug).  For the 64-bit DIV with dividend RDX:RAX = 2^64 and
divisor 1, `speculate_fault` resumes at the instruction after the DIV and
writes the exact remainder 0 into RDX, but writes RAX = 1, because the
source trims the quotient with `% 0xffffffffffffffff` (2^64 - 1) instead
of mod 2^64: the architecturally truncated quotient claimed by the spec
is 2^64 % 2^64 = 0 ≠ 1. -/
theorem c1_div64_overflow_truncation_bug :
    (divSpeculateFault c1State 12).retVal = some 0x2005
      ∧ (divSpeculateFault c1State 12).state.regs "RDX" = 0
      ∧ (divSpeculateFault c1State 12).state.regs "RAX" = 1
      ∧ ((1 <<< 64) + 0) / 1 % 2 ^ 64 = 0
      ∧ ¬ (divSpeculateFault c1State 12).state.regs "RAX"
            = ((1 <<< 64) + 0) / 1 % 2 ^ 64 := by
  refine ⟨by decide, by decide, by decide, by decide, by decide⟩

/-- C9.  If the divide-overflow contract's `speculate_fault` is reached
for an IDIV with a nonzero divisor below the nesting limit, it raises
`UnreachableCode` and never returns a synthesized result. -/
theorem c9_idiv_overflow_unimplemented (s : OOOState) (errno : Nat)
    (divider : Operand)
    (hname : s.current_instruction.name = "IDIV")
    (hlen : s.current_instruction.operands.length = 1)
    (hdepth : s.checkpoints.length < s.nesting)
    (hop : s.current_instruction.operands.head? = some divider)
    (hsrc : divider.isSrc = true)
    (hval : ∃ v, getDividerValue s divider = some v ∧ v ≠ 0) :
    (divSpeculateFault s errno).isUnreachable = true := by
  obtain ⟨v, hv, hv0⟩ := hval
  simp only [divSpeculateFault, hname, hlen, hop, hsrc, hv]
  simp [Nat.not_le.mpr hdepth, hv0, DivFaultResult.isUnreachable, oooCheckpoint, hname]

/-- An IDIV reaching the unimplemented synthesis path: divisor RBX = 5. -/
def c9State : OOOState :=
  { c1State with
    regs := fun r => if r = "RBX" then 5 else 0,
    current_instruction :=
      { name := "IDIV",
        operands := [.reg "RBX" true false 64],
        implicit_operands := [] } }

/-- Witness for C9 at a concrete IDIV state. -/
theorem c9_idiv_overflow_unimplemented_witness :
    (divSpeculateFault c9State 13).isUnreachable = true :=
  c9_idiv_overflow_unimplemented c9State 13 (.reg "RBX" true false 64)
    rfl rfl (by decide) rfl rfl ⟨5, rfl, by decide⟩

/-- Source `addDep` preserves membership. -/
lemma mem_addDep_of_mem {d : List String} {x : String} (y : String) (h : x ∈ d) :
    x ∈ addDep d y := by
  unfold addDep
  split
  · exact h
  · simp [h]

/-- Source `addDep` adds its argument. -/
lemma mem_addDep_self (d : List String) (x : String) : x ∈ addDep d x := by
  unfold addDep
  split
  · assumption
  · simp

/-- Folding `addDep` preserves membership. -/
lemma mem_foldl_addDep_of_mem {d : List String} {x : String} (l : List String) (h : x ∈ d) :
    x ∈ l.foldl addDep d := by
  induction l generalizing d with
  | nil => simpa using h
  | cons a l ih => exact ih (mem_addDep_of_mem a h)

/-- Folding `addDep` adds every element of the folded list. -/
lemma mem_foldl_addDep_self {x : String} :
    ∀ l : List String, x ∈ l → ∀ d : List String, x ∈ l.foldl addDep d := by
  intro l
  induction l with
  | nil => intro h; cases h
  | cons a l ih =>
    intro h d
    rw [List.foldl_cons]
    rcases List.mem_cons.mp h with h | h
    · subst h
      exact mem_foldl_addDep_of_mem l (mem_addDep_self d x)
    · exact ih h (addDep d a)

/-- One step of `seedDeps` preserves membership. -/
lemma mem_seedDeps_step_of_mem {d : List String} {x : String} (op : Operand) (h : x ∈ d) :
    x ∈ (match op with
         | .reg v _ _ _ => addDep d (gpr_normalized v)
         | .flags _ w => w.foldl addDep d
         | .mem _ _ _ _ => d) := by
  cases op with
  | reg v sb db w => exact mem_addDep_of_mem _ h
  | mem v sb db w => exact h
  | flags r w => exact mem_foldl_addDep_of_mem w h

/-- Source `seedDeps` preserves membership. -/
lemma mem_seedDeps_of_mem {d : List String} {x : String} (ops : List Operand) (h : x ∈ d) :
    x ∈ seedDeps d ops := by
  induction ops generalizing d with
  | nil => simpa [seedDeps] using h
  | cons op ops ih =>
    rw [seedDeps, List.foldl_cons]
    exact ih (mem_seedDeps_step_of_mem op h)

/-- Source `seedDeps` adds the canonicalized name of every register operand of the
seeded list. -/
lemma seedDeps_mem_reg {ops : List Operand} {v : String} {sb db : Bool} {w : Nat}
    (d : List String) (h : Operand.reg v sb db w ∈ ops) :
    gpr_normalized v ∈ seedDeps d ops := by
  induction ops generalizing d with
  | nil => cases h
  | cons op ops ih =>
    rw [seedDeps, List.foldl_cons]
    rcases List.mem_cons.mp h with h | h
    · subst h
      exact mem_seedDeps_of_mem ops (mem_addDep_self d (gpr_normalized v))
    · exact ih _ h

/-- Source `seedDeps` adds every written flag of every flags operand of the seeded
list. -/
lemma seedDeps_mem_flag {ops : List Operand} {rf wf : List String} {f : String}
    (d : List String) (h : Operand.flags rf wf ∈ ops) (hf : f ∈ wf) :
    f ∈ seedDeps d ops := by
  induction ops generalizing d with
  | nil => cases h
  | cons op ops ih =>
    rw [seedDeps, List.foldl_cons]
    rcases List.mem_cons.mp h with h | h
    · subst h
      exact mem_seedDeps_of_mem ops (mem_foldl_addDep_self wf hf d)
    · exact ih _ h

/-- C6.  `x86UnicornOOO.speculate_fault` returns 0 for every errno outside
the curated subset `[12, 13]` and whenever the checkpoint stack is at or
above the nesting limit (leaving the state untouched); otherwise it pushes
a checkpoint with resume target `code_end` (program end), adds every
destination register (canonicalized) and every written flag of the
faulting instruction to the dependency set, and returns the next
instruction address, or 0 if that address is at or past program end. -/
theorem c6_ooo_speculate_fault_contract (s : OOOState) (errno : Nat) :
    (errno ∉ relevant_faults → oooSpeculateFault s errno = (0, s))
    ∧ (s.nesting ≤ s.checkpoints.length → oooSpeculateFault s errno = (0, s))
    ∧ (errno ∈ relevant_faults → s.checkpoints.length < s.nesting →
        (oooSpeculateFault s errno).2.checkpoints = s.checkpoints ++ [(s.regs, s.code_end)]
        ∧ (∀ v sb db w,
            Operand.reg v sb db w ∈ s.current_instruction.getDestOperands true →
            gpr_normalized v ∈ (oooSpeculateFault s errno).2.dependencies)
        ∧ (∀ rf wf f,
            Operand.flags rf wf ∈ s.current_instruction.getDestOperands true → f ∈ wf →
            f ∈ (oooSpeculateFault s errno).2.dependencies)
        ∧ (oooSpeculateFault s errno).1
            = if s.code_end ≤ s.next_instr_address then 0 else s.next_instr_address) := by
  refine ⟨fun h => by simp [oooSpeculateFault, h], fun h => ?_, fun h1 h2 => ?_⟩
  · by_cases hm : errno ∈ relevant_faults
    · simp [oooSpeculateFault, hm, h]
    · simp [oooSpeculateFault, hm]
  · have e1 : (errno ∉ relevant_faults) ↔ False := iff_false_intro (not_not_intro h1)
    have e2 : (s.nesting ≤ s.checkpoints.length) ↔ False :=
      iff_false_intro (Nat.not_le.mpr h2)
    refine ⟨?_, fun v sb db w hmem => ?_, fun rf wf f hmem hf => ?_, ?_⟩
    · simp only [oooSpeculateFault, e1, e2, if_false, oooCheckpoint]
      split <;> rfl
    · simp only [oooSpeculateFault, e1, e2, if_false, oooCheckpoint]
      split <;> exact seedDeps_mem_reg s.dependencies hmem
    · simp only [oooSpeculateFault, e1, e2, if_false, oooCheckpoint]
      split <;> exact seedDeps_mem_flag s.dependencies hmem hf
    · simp only [oooSpeculateFault, e1, e2, if_false, oooCheckpoint]
      split <;> rfl

/-- Witness state for C6/C10: an ADD-like faulting instruction with
destination register RAX and written flags, one free checkpoint slot, and
the next instruction at program end. -/
def c10State : OOOState :=
  { c1State with
    nesting := 1,
    code_end := 0x2000,
    next_instr_address := 0x2000,
    current_instruction :=
      { name := "ADD",
        operands := [.reg "RAX" true true 64],
        implicit_operands := [.flags [] ["CF", "ZF", "SF", "OF", "PF", "AF"]] } }

/-- Witness for C6: concrete evaluation of all three branches. -/
theorem c6_ooo_speculate_fault_contract_witness :
    oooSpeculateFault c10State 7 = (0, c10State)
    ∧ (oooSpeculateFault c10State 12).2.checkpoints
        = c10State.checkpoints ++ [(c10State.regs, c10State.code_end)]
    ∧ gpr_normalized "RAX" ∈ (oooSpeculateFault c10State 12).2.dependencies
    ∧ "ZF" ∈ (oooSpeculateFault c10State 12).2.dependencies
    ∧ (oooSpeculateFault c10State 12).1 = 0 := by
  refine ⟨(c6_ooo_speculate_fault_contract c10State 7).1 (by decide), ?_, ?_, ?_, ?_⟩
  · exact ((c6_ooo_speculate_fault_contract c10State 12).2.2 (by decide) (by decide)).1
  · exact ((c6_ooo_speculate_fault_contract c10State 12).2.2 (by decide)
      (by decide)).2.1 "RAX" true true 64 (by decide)
  · exact ((c6_ooo_speculate_fault_contract c10State 12).2.2 (by decide)
      (by decide)).2.2.1 [] ["CF", "ZF", "SF", "OF", "PF", "AF"] "ZF" (by decide) (by decide)
  · have h := ((c6_ooo_speculate_fault_contract c10State 12).2.2 (by decide)
      (by decide)).2.2.2
    simpa using h

/-- C10 (implicit).  When `x86UnicornOOO.speculate_fault` is called with a
relevant errno below the nesting limit but the next-instruction address is
at or past program end, it returns 0 only after having already pushed a
checkpoint (on both the state and the dependency stack) and seeded the
dependency set with the faulting instruction's destinations: the refusal
is not atomic. -/
theorem c10_ooo_refusal_not_atomic (s : OOOState) (errno : Nat)
    (h1 : errno ∈ relevant_faults)
    (h2 : s.checkpoints.length < s.nesting)
    (h3 : s.code_end ≤ s.next_instr_address) :
    (oooSpeculateFault s errno).1 = 0
    ∧ (oooSpeculateFault s errno).2.checkpoints.length = s.checkpoints.length + 1
    ∧ (oooSpeculateFault s errno).2.dependency_checkpoints.length
        = s.dependency_checkpoints.length + 1
    ∧ (∀ v sb db w,
        Operand.reg v sb db w ∈ s.current_instruction.getDestOperands true →
        gpr_normalized v ∈ (oooSpeculateFault s errno).2.dependencies) := by
  have e1 : (errno ∉ relevant_faults) ↔ False := iff_false_intro (not_not_intro h1)
  have e2 : (s.nesting ≤ s.checkpoints.length) ↔ False :=
    iff_false_intro (Nat.not_le.mpr h2)
  refine ⟨?_, ?_, ?_, fun v sb db w hmem => ?_⟩
  · simp only [oooSpeculateFault, e1, e2, if_false, oooCheckpoint]
    rw [if_pos h3]
  · simp only [oooSpeculateFault, e1, e2, if_false, oooCheckpoint]
    rw [if_pos h3]
    simp
  · simp only [oooSpeculateFault, e1, e2, if_false, oooCheckpoint]
    rw [if_pos h3]
    simp
  · simp only [oooSpeculateFault, e1, e2, if_false, oooCheckpoint]
    rw [if_pos h3]
    exact seedDeps_mem_reg s.dependencies hmem

/-- Witness for C10 at a concrete state whose next instruction sits at
program end. -/
theorem c10_ooo_refusal_not_atomic_witness :
    (oooSpeculateFault c10State 12).1 = 0
    ∧ (oooSpeculateFault c10State 12).2.checkpoints.length
        = c10State.checkpoints.length + 1
    ∧ (oooSpeculateFault c10State 12).2.dependency_checkpoints.length
        = c10State.dependency_checkpoints.length + 1
    ∧ gpr_normalized "RAX" ∈ (oooSpeculateFault c10State 12).2.dependencies := by
  have h := c10_ooo_refusal_not_atomic c10State 12 (by decide) (by decide) (by decide)
  exact ⟨h.1, h.2.1, h.2.2.1, h.2.2.2 "RAX" true true 64 (by decide)⟩

/-- Checkpoint followed by rollback restores the pushed context, dependency
set and stacks exactly (only the `in_speculation` bookkeeping flag is
recomputed). -/
lemma oooCheckpoint_rollback (s : OOOState) (resume : Nat) :
    oooRollback (oooCheckpoint s resume)
      = some ({ s with in_speculation := !(s.checkpoints).isEmpty }, resume) := by
  simp only [oooRollback, oooCheckpoint, List.getLast?_concat, List.dropLast_concat]
  rfl

/-- Source `x86UnicornOOO.speculate_instruction` never touches the checkpoint
stacks. -/
lemma oooSpeculateInstruction_stacks (s : OOOState) (a sz : Nat) :
    (oooSpeculateInstruction s a sz).checkpoints = s.checkpoints
    ∧ (oooSpeculateInstruction s a sz).dependency_checkpoints = s.dependency_checkpoints
    ∧ (oooSpeculateInstruction s a sz).nesting = s.nesting := by
  simp only [oooSpeculateInstruction]
  split
  · exact ⟨rfl, rfl, rfl⟩
  · split
    · exact ⟨rfl, rfl, rfl⟩
    · exact ⟨rfl, rfl, rfl⟩

/-- Source `x86UnicornOOO.speculate_fault` preserves the equal-depth lockstep of the
two checkpoint stacks. -/
lemma oooSpeculateFault_lockstep (s : OOOState) (errno : Nat)
    (h : s.checkpoints.length = s.dependency_checkpoints.length) :
    (oooSpeculateFault s errno).2.checkpoints.length
      = (oooSpeculateFault s errno).2.dependency_checkpoints.length := by
  simp only [oooSpeculateFault]
  split
  · exact h
  · split
    · exact h
    · split <;> simp [oooCheckpoint, h]

/-- Source `x86UnicornOOO.rollback` preserves the equal-depth lockstep of the two
checkpoint stacks. -/
lemma oooRollback_lockstep {s : OOOState} {p : OOOState × Nat}
    (hr : oooRollback s = some p)
    (h : s.checkpoints.length = s.dependency_checkpoints.length) :
    p.1.checkpoints.length = p.1.dependency_checkpoints.length := by
  cases hdep : s.dependency_checkpoints.getLast? with
  | none => rw [oooRollback, hdep] at hr; simp at hr
  | some deps =>
    cases hck : s.checkpoints.getLast? with
    | none => rw [oooRollback, hdep, hck] at hr; simp at hr
    | some cr =>
      cases hlog : s.store_logs.getLast? with
      | none => rw [oooRollback, hdep, hck, hlog] at hr; simp at hr
      | some log =>
        obtain ⟨regs, resume⟩ := cr
        rw [oooRollback, hdep, hck, hlog] at hr
        simp only [Option.some.injEq] at hr
        rw [← hr]
        simp [List.length_dropLast, h]

/-- Every hook-level operation of the out-of-order contract preserves the
equal-depth lockstep of the two checkpoint stacks. -/
lemma oooStep_lockstep (s : OOOState) (op : OOOOp)
    (h : s.checkpoints.length = s.dependency_checkpoints.length) :
    (oooStep s op).checkpoints.length = (oooStep s op).dependency_checkpoints.length := by
  cases op with
  | fault errno => exact oooSpeculateFault_lockstep s errno h
  | instr a sz =>
      rw [oooStep, (oooSpeculateInstruction_stacks s a sz).1,
          (oooSpeculateInstruction_stacks s a sz).2.1]
      exact h
  | ckpt resume => simp [oooStep, oooCheckpoint, h]
  | rb =>
      rw [oooStep]
      cases hr : oooRollback s with
      | none => exact h
      | some p => exact oooRollback_lockstep hr h

/-- Lockstep of the two checkpoint stacks holds after any run of hook-level
operations. -/
lemma runOOO_lockstep (ops : List OOOOp) (s : OOOState)
    (h : s.checkpoints.length = s.dependency_checkpoints.length) :
    (runOOO s ops).checkpoints.length = (runOOO s ops).dependency_checkpoints.length := by
  induction ops generalizing s with
  | nil => simpa [runOOO] using h
  | cons op ops ih =>
      rw [runOOO, List.foldl_cons]
      exact ih (oooStep s op) (oooStep_lockstep s op h)

/-- C3.  In the out-of-order contract every checkpoint pushes a snapshot
of the dependency set in lockstep with the inherited state checkpoint and
every rollback pops it: a checkpoint-then-rollback round trip restores the
architectural register/memory state, the dependency set and both stacks
to their pre-checkpoint values, and along any run of hook-level operations
the dependency-checkpoint stack keeps exactly the depth of the
state-checkpoint stack. -/
theorem c3_dependency_checkpoint_lockstep :
    (∀ (s : OOOState) (resume : Nat),
      (oooCheckpoint s resume).checkpoints.length = s.checkpoints.length + 1
      ∧ (oooCheckpoint s resume).dependency_checkpoints.length
          = s.dependency_checkpoints.length + 1
      ∧ ∃ s', oooRollback (oooCheckpoint s resume) = some (s', resume)
          ∧ s'.regs = s.regs ∧ s'.mem = s.mem
          ∧ s'.dependencies = s.dependencies
          ∧ s'.checkpoints = s.checkpoints
          ∧ s'.dependency_checkpoints = s.dependency_checkpoints
          ∧ s'.store_logs = s.store_logs)
    ∧ (∀ (ops : List OOOOp) (s : OOOState),
        s.checkpoints.length = s.dependency_checkpoints.length →
        (runOOO s ops).checkpoints.length
          = (runOOO s ops).dependency_checkpoints.length) := by
  refine ⟨fun s resume => ⟨by simp [oooCheckpoint], by simp [oooCheckpoint], ?_⟩,
          runOOO_lockstep⟩
  exact ⟨{ s with in_speculation := !(s.checkpoints).isEmpty },
    oooCheckpoint_rollback s resume, rfl, rfl, rfl, rfl, rfl, rfl⟩

/-- Witness for C3: a concrete checkpoint-then-rollback run keeps the two
stacks at equal depth, and a concrete checkpoint raises both depths
by one. -/
theorem c3_dependency_checkpoint_lockstep_witness :
    (runOOO c10State [OOOOp.ckpt 7, OOOOp.instr 0x10 4, OOOOp.rb]).checkpoints.length
      = (runOOO c10State
          [OOOOp.ckpt 7, OOOOp.instr 0x10 4, OOOOp.rb]).dependency_checkpoints.length
    ∧ (oooCheckpoint c10State 7).checkpoints.length = c10State.checkpoints.length + 1 := by
  refine ⟨c3_dependency_checkpoint_lockstep.2 [OOOOp.ckpt 7, OOOOp.instr 0x10 4, OOOOp.rb]
    c10State rfl, (c3_dependency_checkpoint_lockstep.1 c10State 7).1⟩

/-- Decoding a JZ (opcode 0x74) with displacement byte `b`: the raw one-byte
target is returned unsigned, taken iff ZF is set. -/
lemma decode_jz (b flags rcx : Nat) :
    decode [0x74, b] flags rcx = (b, ((flags &&& FLAGS_ZF) != 0), false) := rfl

/-- Reading two bytes of code. -/
lemma memReadBytes_two (mem : Nat → Nat) (address : Nat) :
    memReadBytes mem address 2 = [mem (address + 0), mem (address + 1)] := rfl

/-- Effect of `X86UnicornCond.speculate_instruction` on a recognized branch
below the nesting limit: push a checkpoint resuming at the architecturally
correct next address and set RIP to the opposite address. -/
lemma condSpeculateInstruction_branch (s : CondState) (address size t : Nat) (wj il : Bool)
    (hD : s.checkpoints.length < s.nesting)
    (hSz : size ≤ 15)
    (hdec : decode (memReadBytes s.mem address size) s.flags s.rcx = (t, wj, il))
    (ht : t ≠ 0) :
    (condSpeculateInstruction s address size).checkpoints.map Prod.snd
        = s.checkpoints.map Prod.snd
          ++ [if wj then address + size + t else address + size]
    ∧ (condSpeculateInstruction s address size).rip
        = (if wj then address + size else address + size + t)
    ∧ (condSpeculateInstruction s address size).checkpoints.length
        = s.checkpoints.length + 1 := by
  have e1 : (s.nesting ≤ s.checkpoints.length) ↔ False := iff_false_intro (Nat.not_le.mpr hD)
  have e2 : (15 < size) ↔ False := iff_false_intro (Nat.not_lt.mpr hSz)
  have e3 : (t = 0) ↔ False := iff_false_intro ht
  simp only [condSpeculateInstruction, e1, e2, e3, if_false, hdec]
  cases il <;> cases wj <;> simp [condCtxOf]

/-- Source `X86UnicornCond.speculate_instruction` ignores instructions longer than
15 bytes. -/
lemma condSpeculateInstruction_oversize (s : CondState) (address size : Nat)
    (hSz : 15 < size) :
    condSpeculateInstruction s address size = s := by
  simp [condSpeculateInstruction, hSz]

/-- The JZ counterexample state for C2: bytes `74 80` (JZ with displacement
byte 0x80 = -128 signed) at address 0x1000, ZF set, one free checkpoint
slot. -/
def c2State : CondState :=
  { mem := fun a => if a = 0x1000 then 0x74 else if a = 0x1001 then 0x80 else 0,
    flags := FLAGS_ZF,
    rcx := 5,
    rip := 0x1000,
    checkpoints := [],
    nesting := 2 }

/-- C2 (counterexample).  For the JZ at 0x1000 with displacement byte
0x80 and ZF set, the contract predicts taken but computes the target from
the UNSIGNED displacement: the pushed checkpoint resumes at
0x1000 + 2 + 0x80 = 0x1082, not at the signed target
0x1000 + 2 - 128 = 0xF82 stated by the claim; RIP is set to the
fallthrough 0x1002. -/
theorem c2_counterexample_unsigned_displacement :
    decode (memReadBytes c2State.mem 0x1000 2) c2State.flags c2State.rcx
        = (0x80, true, false)
    ∧ (condSpeculateInstruction c2State 0x1000 2).checkpoints.map Prod.snd = [0x1082]
    ∧ claimSignedJZTarget 0x1000 2 0x80 = 0xF82
    ∧ ((0x1082 : Int) ≠ claimSignedJZTarget 0x1000 2 0x80)
    ∧ (condSpeculateInstruction c2State 0x1000 2).rip = 0x1002 := by
  refine ⟨by decide, by decide, by decide, by decide, by decide⟩

/-- C2 (amended).  For every JZ (opcode 0x74) fetched while ZF is set and
the checkpoint stack is below the nesting limit, decode predicts the
branch taken with target computed from the UNSIGNED one-byte displacement
following the opcode (a zero displacement decodes to the not-a-branch
sentinel), and the misprediction path sets the resumed program counter to
the fallthrough, which differs from the predicted-taken target. -/
theorem c2_jz_predicted_taken_unsigned (s : CondState) (address b : Nat)
    (hD : s.checkpoints.length < s.nesting)
    (h0 : s.mem (address + 0) = 0x74)
    (h1 : s.mem (address + 1) = b)
    (hzf : (s.flags &&& FLAGS_ZF) ≠ 0)
    (hb : b ≠ 0) :
    decode (memReadBytes s.mem address 2) s.flags s.rcx = (b, true, false)
    ∧ (condSpeculateInstruction s address 2).checkpoints.map Prod.snd
        = s.checkpoints.map Prod.snd ++ [address + 2 + b]
    ∧ (condSpeculateInstruction s address 2).rip = address + 2
    ∧ (condSpeculateInstruction s address 2).rip ≠ address + 2 + b := by
  have hcode : memReadBytes s.mem address 2 = [0x74, b] := by
    rw [memReadBytes_two, h0, h1]
  have hdec : decode (memReadBytes s.mem address 2) s.flags s.rcx = (b, true, false) := by
    rw [hcode, decode_jz]
    simp [bne_iff_ne, hzf]
  have hmain := condSpeculateInstruction_branch s address 2 b true false hD (by omega) hdec hb
  refine ⟨hdec, by simpa using hmain.1, by simpa using hmain.2.1, ?_⟩
  rw [(by simpa using hmain.2.1 : (condSpeculateInstruction s address 2).rip = address + 2)]
  omega

/-- Witness for C2 (amended) at the concrete JZ state. -/
theorem c2_jz_predicted_taken_unsigned_witness :
    decode (memReadBytes c2State.mem 0x1000 2) c2State.flags c2State.rcx
        = (0x80, true, false)
    ∧ (condSpeculateInstruction c2State 0x1000 2).checkpoints.map Prod.snd
        = c2State.checkpoints.map Prod.snd ++ [0x1000 + 2 + 0x80]
    ∧ (condSpeculateInstruction c2State 0x1000 2).rip = 0x1000 + 2
    ∧ (condSpeculateInstruction c2State 0x1000 2).rip ≠ 0x1000 + 2 + 0x80 :=
  c2_jz_predicted_taken_unsigned c2State 0x1000 0x80
    (by decide) (by decide) (by decide) (by decide) (by decide)

/-- C7.  For every instruction recognized as a conditional branch by the
conditional-branch contract (nonzero decoded target) while the
checkpoint-stack depth is below the nesting limit, the hook takes a
checkpoint whose resume address is the architecturally correct next
address (branch target if willJump, else fallthrough) and sets the
program counter to the opposite address, which always differs — the
contract always mispredicts; instructions longer than 15 bytes are
ignored. -/
theorem c7_cond_always_mispredicts (s : CondState) (address size t : Nat) (wj il : Bool)
    (hD : s.checkpoints.length < s.nesting)
    (hSz : size ≤ 15)
    (hdec : decode (memReadBytes s.mem address size) s.flags s.rcx = (t, wj, il))
    (ht : t ≠ 0) :
    ((condSpeculateInstruction s address size).checkpoints.map Prod.snd
        = s.checkpoints.map Prod.snd
          ++ [if wj then address + size + t else address + size])
    ∧ (condSpeculateInstruction s address size).rip
        = (if wj then address + size else address + size + t)
    ∧ (condSpeculateInstruction s address size).rip
        ≠ (if wj then address + size + t else address + size)
    ∧ (∀ size', 15 < size' → condSpeculateInstruction s address size' = s) := by
  have hmain := condSpeculateInstruction_branch s address size t wj il hD hSz hdec ht
  refine ⟨hmain.1, hmain.2.1, ?_, fun size' h => condSpeculateInstruction_oversize s address size' h⟩
  rw [hmain.2.1]
  cases wj <;> simp <;> omega

/-- Witness for C7 at the concrete JZ state. -/
theorem c7_cond_always_mispredicts_witness :
    ((condSpeculateInstruction c2State 0x1000 2).checkpoints.map Prod.snd
        = c2State.checkpoints.map Prod.snd ++ [if true then 0x1000 + 2 + 0x80 else 0x1000 + 2])
    ∧ (condSpeculateInstruction c2State 0x1000 2).rip
        = (if true then 0x1000 + 2 else 0x1000 + 2 + 0x80)
    ∧ (condSpeculateInstruction c2State 0x1000 2).rip
        ≠ (if true then 0x1000 + 2 + 0x80 else 0x1000 + 2)
    ∧ condSpeculateInstruction c2State 0x1000 16 = c2State := by
  have h := c7_cond_always_mispredicts c2State 0x1000 2 0x80 true false
    (by decide) (by decide) (by decide) (by decide)
  exact ⟨h.1, h.2.1, h.2.2.1, h.2.2.2 16 (by omega)⟩

/-- Reading back a logged byte list. -/
lemma memReadBytes_getD {mem : Nat → Nat} {address n i : Nat} (h : i < n) :
    (memReadBytes mem address n).getD i 0 = mem (address + i) := by
  simp [memReadBytes, List.getD, List.getElem?_map, List.getElem?_range, h]

/-- Length of a read byte list. -/
lemma memReadBytes_length (mem : Nat → Nat) (address n : Nat) :
    (memReadBytes mem address n).length = n := by
  simp [memReadBytes]

/-- A write hits inside its range. -/
lemma memWriteBytes_in {mem : Nat → Nat} {address : Nat} {bs : List Nat} {a : Nat}
    (h1 : address ≤ a) (h2 : a < address + bs.length) :
    memWriteBytes mem address bs a = bs.getD (a - address) 0 := by
  simp [memWriteBytes, h1, h2]

/-- A write leaves addresses outside its range unchanged. -/
lemma memWriteBytes_out {mem : Nat → Nat} {address : Nat} {bs : List Nat} {a : Nat}
    (h : a < address ∨ address + bs.length ≤ a) :
    memWriteBytes mem address bs a = mem a := by
  have : ¬ (address ≤ a ∧ a < address + bs.length) := by omega
  simp [memWriteBytes, this]

/-- Zero-injection writes zero at every accessed byte. -/
lemma memWriteBytes_replicate_zero {mem : Nat → Nat} {address size i : Nat} (h : i < size) :
    memWriteBytes mem address (List.replicate size 0) (address + i) = 0 := by
  rw [memWriteBytes_in (by omega) (by simp; omega)]
  simp [List.getD, List.getElem?_replicate, h]

/-- Writing back the logged original 8 bytes restores them, whatever was
written over them in between. -/
lemma memWriteBytes_restore (m m' : Nat → Nat) (address i : Nat) (hi : i < 8) :
    memWriteBytes m' address (memReadBytes m address 8) (address + i) = m (address + i) := by
  rw [memWriteBytes_in (by omega) (by rw [memReadBytes_length]; omega)]
  have : address + i - address = i := by omega
  rw [this]
  exact memReadBytes_getD hi

/-- Rollback after a checkpoint push with a one-entry store log (shape shared
by both zero-injection hooks). -/
lemma nullRollback_concat (t : NullState) (regs : String → Nat) (resume : Nat)
    (log : List (Nat × List Nat)) :
    nullRollback { t with checkpoints := t.checkpoints ++ [(regs, resume)],
                          store_logs := t.store_logs ++ [log] }
      = some ({ t with regs := regs, mem := applyLog t.mem log,
                       checkpoints := t.checkpoints, store_logs := t.store_logs }, resume) := by
  simp only [nullRollback, List.getLast?_concat, List.dropLast_concat]

/-- Effect of `X86UnicornNull.speculate_mem_access` on a load with injection
pending. -/
lemma nullSpeculateMemAccess_load (s : NullState) (access address size : Nat)
    (hp : s.injection_pending = true) (ha : access ≠ UC_MEM_WRITE) :
    nullSpeculateMemAccess s access address size
      = { s with injection_pending := false,
                 checkpoints := s.checkpoints ++ [(s.regs, s.instruction_address)],
                 store_logs := s.store_logs ++ [[(address, memReadBytes s.mem address 8)]],
                 mem := memWriteBytes s.mem address (List.replicate size 0) } := by
  have e : (access = UC_MEM_WRITE) ↔ False := iff_false_intro ha
  simp [nullSpeculateMemAccess, hp, e, List.dropLast_concat, List.getLastD_concat]

/-- A write access only consumes the injection flag. -/
lemma nullSpeculateMemAccess_store (s : NullState) (address size : Nat)
    (hp : s.injection_pending = true) :
    nullSpeculateMemAccess s UC_MEM_WRITE address size
      = { s with injection_pending := false } := by
  simp [nullSpeculateMemAccess, hp]

/-- Effect of `X86UnicornNullFault.speculate_mem_access` on a load with
injection pending. -/
lemma nullFaultSpeculateMemAccess_load (s : NullState) (access address size : Nat)
    (hp : s.injection_pending = true) (ha : access ≠ UC_MEM_WRITE) :
    nullFaultSpeculateMemAccess s access address size
      = { s with injection_pending := false,
                 checkpoints := s.checkpoints ++ [(s.regs, s.code_end)],
                 store_logs := s.store_logs ++ [[(address, memReadBytes s.mem address 8)]],
                 mem := memWriteBytes s.mem address (List.replicate size 0) } := by
  have e : (access = UC_MEM_WRITE) ↔ False := iff_false_intro ha
  simp [nullFaultSpeculateMemAccess, hp, e, List.dropLast_concat, List.getLastD_concat]

/-- A write access only consumes the injection flag (terminal variant). -/
lemma nullFaultSpeculateMemAccess_store (s : NullState) (address size : Nat)
    (hp : s.injection_pending = true) :
    nullFaultSpeculateMemAccess s UC_MEM_WRITE address size
      = { s with injection_pending := false } := by
  simp [nullFaultSpeculateMemAccess, hp]

/-- C5.  In the zero-injection contracts, with the injection-pending flag
armed, the memory-access hook on a load consumes the flag, takes a
checkpoint (resuming at the faulting instruction for `X86UnicornNull`, at
program end for `X86UnicornNullFault`), appends the original 8 bytes at
the accessed address to the store log, and overwrites the loaded bytes
with zero; store accesses never trigger injection; a later rollback
restores the exact original bytes recorded in the store log; and
`speculate_fault` arms the flag for the curated faults below the nesting
limit. -/
theorem c5_zero_injection_hooks (s : NullState) (access address size : Nat)
    (hp : s.injection_pending = true) :
    (access ≠ UC_MEM_WRITE →
      (nullSpeculateMemAccess s access address size).injection_pending = false
      ∧ (nullSpeculateMemAccess s access address size).checkpoints
          = s.checkpoints ++ [(s.regs, s.instruction_address)]
      ∧ (nullSpeculateMemAccess s access address size).store_logs
          = s.store_logs ++ [[(address, memReadBytes s.mem address 8)]]
      ∧ (∀ i, i < size → (nullSpeculateMemAccess s access address size).mem (address + i) = 0)
      ∧ (∀ a, a < address ∨ address + size ≤ a →
          (nullSpeculateMemAccess s access address size).mem a = s.mem a)
      ∧ (∃ s2, nullRollback (nullSpeculateMemAccess s access address size)
            = some (s2, s.instruction_address)
          ∧ (∀ i, i < 8 → s2.mem (address + i) = s.mem (address + i))
          ∧ s2.regs = s.regs ∧ s2.checkpoints = s.checkpoints
          ∧ s2.store_logs = s.store_logs))
    ∧ (nullSpeculateMemAccess s UC_MEM_WRITE address size
        = { s with injection_pending := false })
    ∧ (access ≠ UC_MEM_WRITE →
      (nullFaultSpeculateMemAccess s access address size).injection_pending = false
      ∧ (nullFaultSpeculateMemAccess s access address size).checkpoints
          = s.checkpoints ++ [(s.regs, s.code_end)]
      ∧ (nullFaultSpeculateMemAccess s access address size).store_logs
          = s.store_logs ++ [[(address, memReadBytes s.mem address 8)]]
      ∧ (∀ i, i < size →
          (nullFaultSpeculateMemAccess s access address size).mem (address + i) = 0)
      ∧ (∃ s2, nullRollback (nullFaultSpeculateMemAccess s access address size)
            = some (s2, s.code_end)
          ∧ (∀ i, i < 8 → s2.mem (address + i) = s.mem (address + i))))
    ∧ (nullFaultSpeculateMemAccess s UC_MEM_WRITE address size
        = { s with injection_pending := false })
    ∧ (∀ errno, errno ∈ [12, 13] → s.checkpoints.length < s.nesting →
        nullSpeculateFault s errno
          = (s.instruction_address,
             { s with injection_pending := true, faultyProtected := false })) := by
  refine ⟨fun ha => ?_, nullSpeculateMemAccess_store s address size hp,
          fun ha => ?_, nullFaultSpeculateMemAccess_store s address size hp,
          fun errno he hd => ?_⟩
  · rw [nullSpeculateMemAccess_load s access address size hp ha]
    refine ⟨rfl, rfl, rfl, fun i hi => memWriteBytes_replicate_zero hi,
            fun a haout => memWriteBytes_out (by simpa using haout), ?_⟩
    have hr := nullRollback_concat
      { s with injection_pending := false,
               mem := memWriteBytes s.mem address (List.replicate size 0) }
      s.regs s.instruction_address [(address, memReadBytes s.mem address 8)]
    refine ⟨_, hr, fun i hi => ?_, rfl, rfl, rfl⟩
    exact memWriteBytes_restore s.mem _ address i hi
  · rw [nullFaultSpeculateMemAccess_load s access address size hp ha]
    refine ⟨rfl, rfl, rfl, fun i hi => memWriteBytes_replicate_zero hi, ?_⟩
    have hr := nullRollback_concat
      { s with injection_pending := false,
               mem := memWriteBytes s.mem address (List.replicate size 0) }
      s.regs s.code_end [(address, memReadBytes s.mem address 8)]
    refine ⟨_, hr, fun i hi => ?_⟩
    exact memWriteBytes_restore s.mem _ address i hi
  · have e1 : (errno ∉ [12, 13]) ↔ False := iff_false_intro (not_not_intro he)
    have e2 : (s.nesting ≤ s.checkpoints.length) ↔ False :=
      iff_false_intro (Nat.not_le.mpr hd)
    simp only [nullSpeculateFault, e1, e2, if_false]

/-- Witness state for C5: injection pending, nonzero memory bytes. -/
def c5State : NullState :=
  { regs := fun _ => 0,
    mem := fun a => a % 251 + 1,
    checkpoints := [],
    store_logs := [],
    injection_pending := true,
    instruction_address := 0x100,
    faultyProtected := true,
    nesting := 1,
    code_end := 0x2000 }

/-- Witness for C5: a concrete load injection, store no-op, arming, and
rollback byte restoration. -/
theorem c5_zero_injection_hooks_witness :
    (nullSpeculateMemAccess c5State 16 0x500 4).injection_pending = false
    ∧ (nullSpeculateMemAccess c5State 16 0x500 4).store_logs
        = [[(0x500, memReadBytes c5State.mem 0x500 8)]]
    ∧ (nullSpeculateMemAccess c5State 16 0x500 4).mem (0x500 + 2) = 0
    ∧ (nullFaultSpeculateMemAccess c5State 16 0x500 4).checkpoints.map Prod.snd
        = [c5State.code_end]
    ∧ nullSpeculateMemAccess c5State UC_MEM_WRITE 0x500 4
        = { c5State with injection_pending := false }
    ∧ (nullSpeculateFault c5State 12).2.injection_pending = true
    ∧ Option.map (fun p => p.1.mem (0x500 + 3))
        (nullRollback (nullSpeculateMemAccess c5State 16 0x500 4))
        = some (c5State.mem (0x500 + 3)) := by
  have h := c5_zero_injection_hooks c5State 16 0x500 4 rfl
  have hload := h.1 (by decide)
  have hfault := h.2.2.1 (by decide)
  refine ⟨hload.1, by rw [hload.2.2.1]; rfl, hload.2.2.2.1 2 (by omega), ?_,
          h.2.1, ?_, ?_⟩
  · rw [hfault.2.1]
    rfl
  · rw [h.2.2.2.2 12 (by decide) (by decide)]
  · obtain ⟨s2, heq, hbytes, _⟩ := hload.2.2.2.2.2
    rw [heq]
    simp [hbytes 3 (by omega)]

/-- If the non-canonical scan hits register `r`, its value lies strictly
inside the non-canonical gap. -/
lemma gpScan_in_gap (regs : String → Nat) :
    ∀ (vs : List String) (r : String), gpScan regs vs = some r →
      0x00007fffffffffff < ucRegRead regs r ∧ ucRegRead regs r < 0xffff800000000000 := by
  intro vs
  induction vs with
  | nil => intro r h; cases h
  | cons v rest ih =>
    intro r h
    rw [gpScan] at h
    split at h
    · exact ih r h
    · split at h
      · rename_i hgap
        cases h
        exact hgap
      · exact ih r h

/-- Reading a name outside the sub-register alias table reads the register
file directly. -/
lemma ucRegRead_default {regs : String → Nat} {r : String} (h : r ∉ subRegAliases) :
    ucRegRead regs r = regs r := by
  unfold ucRegRead
  split <;> simp_all [subRegAliases]

/-- Writing a name outside the sub-register alias table writes the register
file directly (masked to 64 bits). -/
lemma ucRegWrite_default {regs : String → Nat} {r : String} (v : Nat)
    (h : r ∉ subRegAliases) :
    ucRegWrite regs r v = fun x => if x = r then v % 2 ^ 64 else regs x := by
  unfold ucRegWrite
  split <;> simp_all [subRegAliases]

/-- XOR with a nonzero mask changes the value. -/
lemma xor_ne_self {a m : Nat} (hm : m ≠ 0) : a ^^^ m ≠ a := by
  intro h
  apply hm
  have h2 : a ^^^ (a ^^^ m) = a ^^^ a := congrArg (fun x => a ^^^ x) h
  rwa [← Nat.xor_assoc, Nat.xor_self, Nat.zero_xor] at h2

/-- Effect of the `X86GPOOOModel.speculate_instruction` detection branch. -/
lemma gpSpeculateInstruction_detect (s : OOOState) (address size : Nat) (r : String)
    (hscan : gpScan s.regs (s.current_instruction.getMemOperands.map Operand.opValue)
      = some r) :
    gpSpeculateInstruction s address size
      = { s with next_instr_address := address + size,
                 curr_instr_address := address,
                 pending_fault := 6,
                 last_faulty_instr_address := address,
                 regs := ucRegWrite s.regs r (ucRegRead s.regs r ^^^ 0x1000000000000),
                 previous_context :=
                   ucRegWrite s.regs r (ucRegRead s.regs r ^^^ 0x1000000000000),
                 stopped := true } := by
  simp only [gpSpeculateInstruction, hscan]

/-- The GP counterexample state: a `MOV` whose memory operand has single base
register RSI holding `0x0000800000000000` = 2^47, strictly inside the
non-canonical gap. -/
def c4State : OOOState :=
  { c1State with
    regs := fun r => if r = "RSI" then 0x0000800000000000 else 0,
    current_instruction :=
      { name := "MOV",
        operands := [.mem "RSI" true false 64, .reg "RAX" false true 64],
        implicit_operands := [] } }

/-- C4 (counterexample).  For RSI = 2^47 (strictly inside the
non-canonical gap), the hook marks pending fault 6 but rewrites RSI by
flipping bit 48 to `0x0001800000000000`, which is still strictly inside
the gap — NOT a value in canonical form as the claim states. -/
theorem c4_counterexample_bitflip_not_canonical :
    (gpSpeculateInstruction c4State 0x2000 4).pending_fault = 6
    ∧ (gpSpeculateInstruction c4State 0x2000 4).last_faulty_instr_address = 0x2000
    ∧ c4State.regs "RSI" = 0x0000800000000000
    ∧ (0x00007fffffffffff < c4State.regs "RSI"
        ∧ c4State.regs "RSI" < 0xffff800000000000)
    ∧ (gpSpeculateInstruction c4State 0x2000 4).regs "RSI" = 0x0001800000000000
    ∧ ¬ isCanonicalAddr ((gpSpeculateInstruction c4State 0x2000 4).regs "RSI") := by
  refine ⟨by decide, by decide, by decide, by decide, by decide, by decide⟩

/-- C4 (amended).  For every instruction whose memory-operand scan finds a
single (full-width) base register strictly inside the non-canonical gap,
the hook detects it before the instruction executes: it marks pending
fault 6, records the instruction address as last-faulty, rewrites the
register by flipping address bit 48 (a value that is NOT guaranteed to be
canonical), snapshots the corrected context, and stops emulation; a
checkpoint taken afterwards and rolled back restores the corrected —
not the original — register value. -/
theorem c4_gp_noncanonical_detection (s : OOOState) (address size resume : Nat) (r : String)
    (hscan : gpScan s.regs (s.current_instruction.getMemOperands.map Operand.opValue)
      = some r)
    (hsub : r ∉ subRegAliases) :
    (gpSpeculateInstruction s address size).pending_fault = 6
    ∧ (gpSpeculateInstruction s address size).last_faulty_instr_address = address
    ∧ (gpSpeculateInstruction s address size).stopped = true
    ∧ (gpSpeculateInstruction s address size).regs r = s.regs r ^^^ 0x1000000000000
    ∧ (gpSpeculateInstruction s address size).regs r ≠ s.regs r
    ∧ (gpSpeculateInstruction s address size).previous_context
        = (gpSpeculateInstruction s address size).regs
    ∧ (∃ s2, oooRollback (oooCheckpoint (gpSpeculateInstruction s address size) resume)
          = some (s2, resume)
        ∧ s2.regs r = s.regs r ^^^ 0x1000000000000) := by
  have hgap := gpScan_in_gap s.regs _ r hscan
  rw [ucRegRead_default hsub] at hgap
  have hlt : s.regs r ^^^ 0x1000000000000 < 2 ^ 64 := by
    have h1 : s.regs r < 2 ^ 64 := by omega
    have h2 : (0x1000000000000 : Nat) < 2 ^ 64 := by norm_num
    exact Nat.xor_lt_two_pow h1 h2
  have hval : ucRegWrite s.regs r (ucRegRead s.regs r ^^^ 0x1000000000000) r
      = s.regs r ^^^ 0x1000000000000 := by
    rw [ucRegRead_default hsub, ucRegWrite_default _ hsub]
    simp only [if_pos rfl]
    exact Nat.mod_eq_of_lt hlt
  rw [gpSpeculateInstruction_detect s address size r hscan]
  refine ⟨rfl, rfl, rfl, hval, ?_, rfl, ?_⟩
  · show ucRegWrite s.regs r (ucRegRead s.regs r ^^^ 0x1000000000000) r ≠ s.regs r
    rw [hval]
    exact xor_ne_self (by norm_num)
  · have hr := oooCheckpoint_rollback
      { s with next_instr_address := address + size,
               curr_instr_address := address,
               pending_fault := 6,
               last_faulty_instr_address := address,
               regs := ucRegWrite s.regs r (ucRegRead s.regs r ^^^ 0x1000000000000),
               previous_context :=
                 ucRegWrite s.regs r (ucRegRead s.regs r ^^^ 0x1000000000000),
               stopped := true } resume
    exact ⟨_, hr, hval⟩

/-- Witness for C4 (amended) at the concrete RSI = 2^47 state. -/
theorem c4_gp_noncanonical_detection_witness :
    (gpSpeculateInstruction c4State 0x2000 4).pending_fault = 6
    ∧ (gpSpeculateInstruction c4State 0x2000 4).regs "RSI"
        = c4State.regs "RSI" ^^^ 0x1000000000000
    ∧ (gpSpeculateInstruction c4State 0x2000 4).regs "RSI" ≠ c4State.regs "RSI"
    ∧ Option.map (fun p => p.1.regs "RSI")
        (oooRollback (oooCheckpoint (gpSpeculateInstruction c4State 0x2000 4) 0x3000))
        = some (c4State.regs "RSI" ^^^ 0x1000000000000) := by
  have h := c4_gp_noncanonical_detection c4State 0x2000 4 0x3000 "RSI"
    (by decide) (by decide)
  obtain ⟨s2, heq, hval⟩ := h.2.2.2.2.2.2
  refine ⟨h.1, h.2.2.2.1, h.2.2.2.2.1, ?_⟩
  rw [heq]
  simp [hval]

-- ==========================================================================
-- C8: the checkpoint stack never exceeds the configured nesting depth
-- ==========================================================================

/-- Hook-level operations of the out-of-order contract as driven by the
emulator (`checkpoint` itself is only reached from the guarded fault
hook). -/
inductive OOOHookOp where
  | fault (errno : Nat)
  | instr (address size : Nat)
  | rb

/-- One emulator-driven hook invocation of the out-of-order contract. -/
def oooHookStep (s : OOOState) : OOOHookOp → OOOState
  | .fault errno => (oooSpeculateFault s errno).2
  | .instr a sz => oooSpeculateInstruction s a sz
  | .rb => match oooRollback s with
           | some (s', _) => s'
           | none => s

/-- A run of emulator-driven out-of-order hook invocations. -/
def runOOOHooks (s : OOOState) (ops : List OOOHookOp) : OOOState :=
  ops.foldl oooHookStep s

/-- Source `x86UnicornOOO.speculate_fault` respects the nesting bound and keeps the
configured depth. -/
lemma oooSpeculateFault_depth (s : OOOState) (errno : Nat)
    (h : s.checkpoints.length ≤ s.nesting) :
    (oooSpeculateFault s errno).2.checkpoints.length ≤ s.nesting
    ∧ (oooSpeculateFault s errno).2.nesting = s.nesting := by
  simp only [oooSpeculateFault]
  split
  · exact ⟨h, rfl⟩
  · split
    · exact ⟨h, rfl⟩
    · rename_i hm hn
      split <;> refine ⟨?_, rfl⟩ <;> (simp [oooCheckpoint]; omega)

/-- Source `x86UnicornOOO.rollback` only pops. -/
lemma oooRollback_depth {s : OOOState} {p : OOOState × Nat}
    (hr : oooRollback s = some p) :
    p.1.checkpoints.length ≤ s.checkpoints.length ∧ p.1.nesting = s.nesting := by
  cases hdep : s.dependency_checkpoints.getLast? with
  | none => rw [oooRollback, hdep] at hr; simp at hr
  | some deps =>
    cases hck : s.checkpoints.getLast? with
    | none => rw [oooRollback, hdep, hck] at hr; simp at hr
    | some cr =>
      cases hlog : s.store_logs.getLast? with
      | none => rw [oooRollback, hdep, hck, hlog] at hr; simp at hr
      | some log =>
        obtain ⟨regs, resume⟩ := cr
        rw [oooRollback, hdep, hck, hlog] at hr
        simp only [Option.some.injEq] at hr
        rw [← hr]
        refine ⟨?_, rfl⟩
        simp [List.length_dropLast]

/-- All states of a `DivFaultResult` produced by `divExecute` keep the stacks
and the configured depth. -/
lemma divExecute_stacks (s : OOOState) (w v : Nat) :
    (divExecute s w v).state.checkpoints = s.checkpoints
    ∧ (divExecute s w v).state.nesting = s.nesting := by
  simp only [divExecute]
  split
  · exact ⟨rfl, rfl⟩
  · split
    · exact ⟨rfl, rfl⟩
    · split
      · exact ⟨rfl, rfl⟩
      · split
        · exact ⟨rfl, rfl⟩
        · exact ⟨rfl, rfl⟩

/-- Source `X86UnicornDivOverflow.speculate_fault` respects the nesting bound in all
outcomes, the raising ones included. -/
lemma divSpeculateFault_depth (s : OOOState) (errno : Nat)
    (h : s.checkpoints.length ≤ s.nesting) :
    (divSpeculateFault s errno).state.checkpoints.length ≤ s.nesting
    ∧ (divSpeculateFault s errno).state.nesting = s.nesting := by
  simp only [divSpeculateFault]
  split
  · exact oooSpeculateFault_depth s errno h
  · split
    · exact ⟨h, rfl⟩
    · split
      · exact ⟨h, rfl⟩
      · split
        · exact ⟨h, rfl⟩
        · rename_i hn hlen divider hop
          split
          · exact ⟨h, rfl⟩
          · split
            · exact ⟨h, rfl⟩
            · rename_i value hval
              split
              · exact oooSpeculateFault_depth s errno h
              · split
                · rename_i hzero hdiv
                  have hst := divExecute_stacks (oooCheckpoint s s.code_end)
                    divider.width value
                  refine ⟨?_, ?_⟩
                  · rw [hst.1]
                    simp only [oooCheckpoint, List.length_append, List.length_cons,
                      List.length_nil]
                    omega
                  · rw [hst.2]
                    rfl
                · refine ⟨?_, rfl⟩
                  simp only [DivFaultResult.state, oooCheckpoint, List.length_append,
                    List.length_cons, List.length_nil]
                  omega

/-- Source `X86GPOOOModel.speculate_instruction` never touches the checkpoint stack
or the configured depth. -/
lemma gpSpeculateInstruction_stacks (s : OOOState) (a sz : Nat) :
    (gpSpeculateInstruction s a sz).checkpoints = s.checkpoints
    ∧ (gpSpeculateInstruction s a sz).nesting = s.nesting := by
  simp only [gpSpeculateInstruction]
  cases hscan : gpScan s.regs (List.map Operand.opValue s.current_instruction.getMemOperands) with
  | some r => exact ⟨rfl, rfl⟩
  | none =>
    split_ifs <;> exact ⟨rfl, rfl⟩

set_option maxRecDepth 4000 in
/-- The conditional-branch hook respects the nesting bound: it pushes only
below the limit. -/
lemma condSpeculateInstruction_depth (s : CondState) (a sz : Nat)
    (h : s.checkpoints.length ≤ s.nesting) :
    (condSpeculateInstruction s a sz).checkpoints.length ≤ s.nesting
    ∧ (condSpeculateInstruction s a sz).nesting = s.nesting := by
  simp only [condSpeculateInstruction]
  split
  · exact ⟨h, rfl⟩
  · rename_i hguard
    split
    · exact ⟨h, rfl⟩
    · generalize decode (memReadBytes s.mem a sz) s.flags s.rcx = p
      obtain ⟨t, wj, il⟩ := p
      split
      · exact ⟨h, rfl⟩
      · cases il <;> cases wj <;> constructor <;> simp <;> omega

/-- The conditional-branch rollback only pops. -/
lemma condRollback_depth (s : CondState) :
    (condRollback s).checkpoints.length ≤ s.checkpoints.length
    ∧ (condRollback s).nesting = s.nesting := by
  rw [condRollback]
  cases s.checkpoints.getLast? with
  | none => exact ⟨le_refl _, rfl⟩
  | some cr =>
    obtain ⟨ctx, resume⟩ := cr
    refine ⟨?_, rfl⟩
    simp [List.length_dropLast]

/-- Any conditional-branch run from a state within the bound stays within the
bound. -/
lemma runCond_depth (ops : List CondOp) (s : CondState)
    (h : s.checkpoints.length ≤ s.nesting) :
    (runCond s ops).checkpoints.length ≤ s.nesting
    ∧ (runCond s ops).nesting = s.nesting := by
  induction ops generalizing s with
  | nil => exact ⟨h, rfl⟩
  | cons op ops ih =>
    rw [runCond, List.foldl_cons]
    have hstep : (condStep s op).checkpoints.length ≤ s.nesting
        ∧ (condStep s op).nesting = s.nesting := by
      cases op with
      | instr a sz => exact condSpeculateInstruction_depth s a sz h
      | rb =>
        have := condRollback_depth s
        exact ⟨le_trans this.1 h, this.2⟩
    have := ih (condStep s op) (hstep.2 ▸ hstep.1)
    exact ⟨hstep.2 ▸ this.1, hstep.2 ▸ this.2⟩

/-- The zero-injection hooks are inert while injection is not pending. -/
lemma nullSpeculateMemAccess_idle (s : NullState) (access a sz : Nat)
    (hp : s.injection_pending = false) :
    nullSpeculateMemAccess s access a sz = s
    ∧ nullFaultSpeculateMemAccess s access a sz = s := by
  constructor <;> simp [nullSpeculateMemAccess, nullFaultSpeculateMemAccess, hp]

/-- One zero-injection hook invocation preserves the depth invariant: the
stack stays within the bound, and injection is pending only strictly below
the bound (the flag is armed only under the nesting check, and consuming
it pushes at most one checkpoint). -/
lemma nullStep_depth (s : NullState) (op : NullOp)
    (h1 : s.checkpoints.length ≤ s.nesting)
    (h2 : s.injection_pending = true → s.checkpoints.length < s.nesting) :
    (nullStep s op).checkpoints.length ≤ s.nesting
    ∧ ((nullStep s op).injection_pending = true →
        (nullStep s op).checkpoints.length < s.nesting)
    ∧ (nullStep s op).nesting = s.nesting := by
  cases op with
  | fault errno =>
    simp only [nullStep, nullSpeculateFault]
    split
    · exact ⟨h1, h2, rfl⟩
    · split
      · exact ⟨h1, h2, rfl⟩
      · rename_i hm hn
        exact ⟨h1, fun _ => Nat.not_le.mp hn, rfl⟩
  | instr a => exact ⟨h1, h2, rfl⟩
  | memNull access a sz =>
    by_cases hp : s.injection_pending = true
    · by_cases hw : access = UC_MEM_WRITE
      · subst hw
        rw [nullStep, nullSpeculateMemAccess_store s a sz hp]
        exact ⟨h1, by simp, rfl⟩
      · rw [nullStep, nullSpeculateMemAccess_load s access a sz hp hw]
        refine ⟨?_, by simp, rfl⟩
        simp only [List.length_append, List.length_cons, List.length_nil]
        have := h2 hp
        omega
    · have hp' : s.injection_pending = false := by
        revert hp; cases s.injection_pending <;> simp
      rw [nullStep, (nullSpeculateMemAccess_idle s access a sz hp').1]
      exact ⟨h1, h2, rfl⟩
  | memNullFault access a sz =>
    by_cases hp : s.injection_pending = true
    · by_cases hw : access = UC_MEM_WRITE
      · subst hw
        rw [nullStep, nullFaultSpeculateMemAccess_store s a sz hp]
        exact ⟨h1, by simp, rfl⟩
      · rw [nullStep, nullFaultSpeculateMemAccess_load s access a sz hp hw]
        refine ⟨?_, by simp, rfl⟩
        simp only [List.length_append, List.length_cons, List.length_nil]
        have := h2 hp
        omega
    · have hp' : s.injection_pending = false := by
        revert hp; cases s.injection_pending <;> simp
      rw [nullStep, (nullSpeculateMemAccess_idle s access a sz hp').2]
      exact ⟨h1, h2, rfl⟩
  | rb =>
    simp only [nullStep, nullRollback]
    cases hck : s.checkpoints.getLast? with
    | none => exact ⟨h1, h2, rfl⟩
    | some cr =>
      cases hlog : s.store_logs.getLast? with
      | none => exact ⟨h1, h2, rfl⟩
      | some log =>
        obtain ⟨regs, resume⟩ := cr
        refine ⟨?_, fun hpend => ?_, rfl⟩
        · simp only [List.length_dropLast]
          omega
        · have := h2 hpend
          simp only [List.length_dropLast]
          omega

/-- Any zero-injection run from a state within the bound stays within the
bound. -/
lemma runNull_depth (ops : List NullOp) (s : NullState)
    (h1 : s.checkpoints.length ≤ s.nesting)
    (h2 : s.injection_pending = true → s.checkpoints.length < s.nesting) :
    (runNull s ops).checkpoints.length ≤ s.nesting
    ∧ (runNull s ops).nesting = s.nesting := by
  induction ops generalizing s with
  | nil => exact ⟨h1, rfl⟩
  | cons op ops ih =>
    rw [runNull, List.foldl_cons]
    have hstep := nullStep_depth s op h1 h2
    have := ih (nullStep s op) (hstep.2.2 ▸ hstep.1)
      (fun hp => hstep.2.2 ▸ hstep.2.1 hp)
    exact ⟨hstep.2.2 ▸ this.1, hstep.2.2 ▸ this.2⟩

/-- One emulator-driven out-of-order hook invocation respects the nesting
bound. -/
lemma oooHookStep_depth (s : OOOState) (op : OOOHookOp)
    (h : s.checkpoints.length ≤ s.nesting) :
    (oooHookStep s op).checkpoints.length ≤ s.nesting
    ∧ (oooHookStep s op).nesting = s.nesting := by
  cases op with
  | fault errno => exact oooSpeculateFault_depth s errno h
  | instr a sz =>
    rw [oooHookStep, (oooSpeculateInstruction_stacks s a sz).1]
    exact ⟨h, (oooSpeculateInstruction_stacks s a sz).2.2⟩
  | rb =>
    rw [oooHookStep]
    cases hr : oooRollback s with
    | none => exact ⟨h, rfl⟩
    | some p =>
      have := oooRollback_depth hr
      exact ⟨le_trans this.1 h, this.2⟩

/-- Any out-of-order run from a state within the bound stays within the
bound. -/
lemma runOOOHooks_depth (ops : List OOOHookOp) (s : OOOState)
    (h : s.checkpoints.length ≤ s.nesting) :
    (runOOOHooks s ops).checkpoints.length ≤ s.nesting
    ∧ (runOOOHooks s ops).nesting = s.nesting := by
  induction ops generalizing s with
  | nil => exact ⟨h, rfl⟩
  | cons op ops ih =>
    rw [runOOOHooks, List.foldl_cons]
    have hstep := oooHookStep_depth s op h
    have := ih (oooHookStep s op) (hstep.2 ▸ hstep.1)
    exact ⟨hstep.2 ▸ this.1, hstep.2 ▸ this.2⟩

/-- One divide-overflow hook invocation respects the nesting bound. -/
lemma divStep_depth (s : OOOState) (op : DivOp)
    (h : s.checkpoints.length ≤ s.nesting) :
    (divStep s op).checkpoints.length ≤ s.nesting
    ∧ (divStep s op).nesting = s.nesting := by
  cases op with
  | fault errno => exact divSpeculateFault_depth s errno h
  | instr a sz =>
    rw [divStep, (oooSpeculateInstruction_stacks s a sz).1]
    exact ⟨h, (oooSpeculateInstruction_stacks s a sz).2.2⟩
  | traceMem a sz => exact ⟨h, rfl⟩
  | rb =>
    rw [divStep]
    cases hr : oooRollback s with
    | none => exact ⟨h, rfl⟩
    | some p =>
      have := oooRollback_depth hr
      exact ⟨le_trans this.1 h, this.2⟩

/-- Any divide-overflow run from a state within the bound stays within the
bound. -/
lemma runDiv_depth (ops : List DivOp) (s : OOOState)
    (h : s.checkpoints.length ≤ s.nesting) :
    (runDiv s ops).checkpoints.length ≤ s.nesting
    ∧ (runDiv s ops).nesting = s.nesting := by
  induction ops generalizing s with
  | nil => exact ⟨h, rfl⟩
  | cons op ops ih =>
    rw [runDiv, List.foldl_cons]
    have hstep := divStep_depth s op h
    have := ih (divStep s op) (hstep.2 ▸ hstep.1)
    exact ⟨hstep.2 ▸ this.1, hstep.2 ▸ this.2⟩

/-- One non-canonical-address hook invocation respects the nesting bound. -/
lemma gpStep_depth (s : OOOState) (op : GPOp)
    (h : s.checkpoints.length ≤ s.nesting) :
    (gpStep s op).checkpoints.length ≤ s.nesting
    ∧ (gpStep s op).nesting = s.nesting := by
  cases op with
  | fault errno =>
    have hd := oooSpeculateFault_depth s errno h
    rw [gpStep, gpSpeculateFault]
    split
    · exact hd
    · exact hd
  | instr a sz =>
    rw [gpStep, (gpSpeculateInstruction_stacks s a sz).1]
    exact ⟨h, (gpSpeculateInstruction_stacks s a sz).2⟩
  | rb =>
    rw [gpStep]
    cases hr : oooRollback s with
    | none => exact ⟨h, rfl⟩
    | some p =>
      have := oooRollback_depth hr
      exact ⟨le_trans this.1 h, this.2⟩

/-- Any non-canonical-address run from a state within the bound stays within
the bound. -/
lemma runGP_depth (ops : List GPOp) (s : OOOState)
    (h : s.checkpoints.length ≤ s.nesting) :
    (runGP s ops).checkpoints.length ≤ s.nesting
    ∧ (runGP s ops).nesting = s.nesting := by
  induction ops generalizing s with
  | nil => exact ⟨h, rfl⟩
  | cons op ops ih =>
    rw [runGP, List.foldl_cons]
    have hstep := gpStep_depth s op h
    have := ih (gpStep s op) (hstep.2 ▸ hstep.1)
    exact ⟨hstep.2 ▸ this.1, hstep.2 ▸ this.2⟩

/-- C8.  For any run of hook-level operations and configured depth limit,
no contract's checkpoint stack ever exceeds the limit: starting within the
bound (with, for the zero-injection contracts, the pending flag armed only
strictly below the bound — the state in which `speculate_fault` arms it),
every reachable state of the conditional-branch, zero-injection,
out-of-order, divide-overflow and non-canonical-address contracts keeps
the checkpoint depth at most the nesting limit. -/
theorem c8_checkpoint_depth_bounded :
    (∀ (ops : List CondOp) (s : CondState), s.checkpoints.length ≤ s.nesting →
        (runCond s ops).checkpoints.length ≤ s.nesting)
    ∧ (∀ (ops : List NullOp) (s : NullState),
        s.checkpoints.length ≤ s.nesting →
        (s.injection_pending = true → s.checkpoints.length < s.nesting) →
        (runNull s ops).checkpoints.length ≤ s.nesting)
    ∧ (∀ (ops : List OOOHookOp) (s : OOOState), s.checkpoints.length ≤ s.nesting →
        (runOOOHooks s ops).checkpoints.length ≤ s.nesting)
    ∧ (∀ (ops : List DivOp) (s : OOOState), s.checkpoints.length ≤ s.nesting →
        (runDiv s ops).checkpoints.length ≤ s.nesting)
    ∧ (∀ (ops : List GPOp) (s : OOOState), s.checkpoints.length ≤ s.nesting →
        (runGP s ops).checkpoints.length ≤ s.nesting) :=
  ⟨fun ops s h => (runCond_depth ops s h).1,
   fun ops s h1 h2 => (runNull_depth ops s h1 h2).1,
   fun ops s h => (runOOOHooks_depth ops s h).1,
   fun ops s h => (runDiv_depth ops s h).1,
   fun ops s h => (runGP_depth ops s h).1⟩

/-- Witness for C8: concrete runs of each contract from empty stacks stay
within their bounds. -/
theorem c8_checkpoint_depth_bounded_witness :
    (runCond c2State [CondOp.instr 0x1000 2, CondOp.instr 0x1000 2,
        CondOp.instr 0x1000 2]).checkpoints.length ≤ c2State.nesting
    ∧ (runNull c5State [NullOp.fault 12, NullOp.memNull 16 0x500 4,
        NullOp.fault 12]).checkpoints.length ≤ c5State.nesting
    ∧ (runOOOHooks c10State [OOOHookOp.fault 12, OOOHookOp.fault 12,
        OOOHookOp.rb]).checkpoints.length ≤ c10State.nesting
    ∧ (runDiv c1State [DivOp.fault 12, DivOp.fault 12]).checkpoints.length
        ≤ c1State.nesting
    ∧ (runGP c4State [GPOp.instr 0x2000 4, GPOp.fault 6]).checkpoints.length
        ≤ c4State.nesting := by
  have h := c8_checkpoint_depth_bounded
  exact ⟨h.1 _ c2State (by decide), h.2.1 _ c5State (by decide) (fun _ => by decide),
    h.2.2.1 _ c10State (by decide), h.2.2.2.1 _ c1State (by decide),
    h.2.2.2.2 _ c4State (by decide)⟩

end SCAFuzzer
